import Mathlib

/-!
Verification of the mock-conversation server core against its
natural-language specification.  Go strings are modelled as `List Char`
(the sources only manipulate ASCII, where byte indices and character
indices coincide); fallible Go calls are modelled with `Except`;
the external AI / speech providers are modelled as capability records
whose outcomes are supplied by the environment of one request.
-/

/-- Convert a Lean string literal to the character-list representation used
throughout this development. -/
def goStr (s : String) : List Char :=
  s.data

/-- The opening-brace character, written numerically. -/
def lbrace : Char := Char.ofNat 123

/-- The closing-brace character, written numerically. -/
def rbrace : Char := Char.ofNat 125

/-- Whitespace predicate of Go `unicode.IsSpace` restricted to Latin-1
(tab, newline, vertical tab, form feed, carriage return, space, NEL, NBSP);
the sources only ever trim ASCII whitespace. -/
def goIsSpace (c : Char) : Bool :=
  c.toNat = 9 || c.toNat = 10 || c.toNat = 11 || c.toNat = 12 ||
  c.toNat = 13 || c.toNat = 32 || c.toNat = 133 || c.toNat = 160

/-- Left part of Go `strings.TrimSpace`. -/
def trimLeftGo (s : List Char) : List Char :=
  s.dropWhile goIsSpace

/-- Right part of Go `strings.TrimSpace`. -/
def trimRightGo (s : List Char) : List Char :=
  (s.reverse.dropWhile goIsSpace).reverse

/-- Go `strings.TrimSpace`: drop leading and trailing whitespace. -/
def trimSpace (s : List Char) : List Char :=
  trimRightGo (trimLeftGo s)

/-- Go `strings.Index`: position of the first occurrence of `pat` in `s`
(`none` models the return value `-1`). -/
def indexOfSub (s pat : List Char) : Option Nat :=
  if List.isPrefixOf pat s then some 0
  else
    match s with
    | [] => none
    | _ :: rest => (indexOfSub rest pat).map (· + 1)

/-- Go `strings.LastIndex`: position of the last occurrence of `pat` in `s`. -/
def lastIndexOfSub (s pat : List Char) : Option Nat :=
  match s with
  | [] => if List.isPrefixOf pat ([] : List Char) then some 0 else none
  | c :: rest =>
    match lastIndexOfSub rest pat with
    | some i => some (i + 1)
    | none => if List.isPrefixOf pat (c :: rest) then some 0 else none

/-- Go `strings.Contains`. -/
def containsSub (s pat : List Char) : Bool :=
  (indexOfSub s pat).isSome

/-- The newline character. -/
def nlChar : Char := Char.ofNat 10

/-- The markdown code-fence marker. -/
def fenceMarker : List Char := goStr "```"

/-- Newline as a one-character pattern. -/
def nlPat : List Char := goStr "\n"

/-- Embeds `extractJSON` of `server/internal/util/ai.go` (lines 16-38):
trim; if the text starts with a code fence, cut everything up to and
including the first newline (when one exists), cut from the last fence
marker (when one exists) and trim again; otherwise slice from the first
opening brace to the last closing brace when the former precedes the
latter; otherwise return the trimmed text. -/
def extractJSON (raw : List Char) : List Char :=
  let s := trimSpace raw
  if List.isPrefixOf fenceMarker s then
    let s1 :=
      match indexOfSub s nlPat with
      | some idx => s.drop (idx + 1)
      | none => s
    let s2 :=
      match lastIndexOfSub s1 fenceMarker with
      | some idx => s1.take idx
      | none => s1
    trimSpace s2
  else
    match indexOfSub s [lbrace], lastIndexOfSub s [rbrace] with
    | some start, some stop =>
        if start < stop then (s.drop start).take (stop + 1 - start) else s
    | some _, none => s
    | none, _ => s

/-- Drops the first line of a text: everything up to and including the first
newline; a text with no newline consists of a single line, which is dropped
whole.  Used by the literal reading of the specification sentence for the
Structured Response Extractor. -/
def dropFirstLine : List Char → List Char
  | [] => []
  | c :: rest => if c = nlChar then rest else dropFirstLine rest

/-- Drops everything up to and including the first newline, leaving a text
that has no newline unchanged.  This is what the code actually computes. -/
def dropThroughFirstNl (s : List Char) : List Char :=
  if containsSub s nlPat then dropFirstLine s else s

/-- Cuts a text just before the last occurrence of the fence marker, leaving
it unchanged when no fence marker occurs. -/
def cutFromLastFence (s : List Char) : List Char :=
  match lastIndexOfSub s fenceMarker with
  | some idx => s.take idx
  | none => s

/-- Slices from the first opening brace through the last closing brace when
the former strictly precedes the latter, otherwise returns the text as-is. -/
def braceSlice (s : List Char) : List Char :=
  match indexOfSub s [lbrace], lastIndexOfSub s [rbrace] with
  | some start, some stop =>
      if start < stop then (s.drop start).take (stop + 1 - start) else s
  | some _, none => s
  | none, _ => s

/-- The extraction algorithm exactly as the specification sentence words it:
after trimming, a fenced text loses its first line (dropped whole even when
no newline terminates it) and everything from the last fence marker onward;
otherwise the first-brace/last-brace slice is taken when it exists. -/
def extractJSONSpec (raw : List Char) : List Char :=
  let s := trimSpace raw
  if List.isPrefixOf fenceMarker s then
    trimSpace (cutFromLastFence (dropFirstLine s))
  else
    braceSlice s

/-- The amended extraction algorithm: identical to `extractJSONSpec` except
that a fenced text with no newline keeps its first (only) line instead of
dropping it, matching the code. -/
def extractJSONAmended (raw : List Char) : List Char :=
  let s := trimSpace raw
  if List.isPrefixOf fenceMarker s then
    trimSpace (cutFromLastFence (dropThroughFirstNl s))
  else
    braceSlice s

example : extractJSON (goStr "```abc```") = goStr "```abc" := by decide

example : extractJSONSpec (goStr "```abc```") = [] := by decide

example : extractJSON (goStr "x \x7b\"a\": 1\x7d y") = goStr "\x7b\"a\": 1\x7d" := by decide

/-! ### A model of JSON parsing

`encoding/json` is Go standard library, not part of this repository.
The definitions below are therefore a model of the parts the server uses:
`json.Unmarshal` of a byte string into the `openai.AnswerChatResult`
struct.  Kept faithful to the JSON grammar for the shapes exercised here;
`\u` escapes decode without surrogate pairing, number lexemes are kept
verbatim, and Go field-name case folding is not modelled (the code's own
instructions emit the exact lowercase keys matched here). -/

/-- A JSON value; numbers keep their source lexeme. -/
inductive Json where
  | null : Json
  | bool : Bool → Json
  | num : List Char → Json
  | str : List Char → Json
  | arr : List Json → Json
  | obj : List (List Char × Json) → Json

/-- JSON insignificant whitespace. -/
def jsonWs (c : Char) : Bool :=
  c.toNat = 32 || c.toNat = 9 || c.toNat = 10 || c.toNat = 13

/-- The double-quote character. -/
def quoteChar : Char := Char.ofNat 34

/-- The backslash character. -/
def backslashChar : Char := Char.ofNat 92

/-- Value of one hexadecimal digit. -/
def hexVal (c : Char) : Option Nat :=
  if 48 ≤ c.toNat ∧ c.toNat ≤ 57 then some (c.toNat - 48)
  else if 97 ≤ c.toNat ∧ c.toNat ≤ 102 then some (c.toNat - 87)
  else if 65 ≤ c.toNat ∧ c.toNat ≤ 70 then some (c.toNat - 55)
  else none

/-- Decode one escape sequence after a backslash; returns the decoded
character and the remaining input. -/
def decodeEscape : List Char → Option (Char × List Char)
  | [] => none
  | e :: rest =>
    if e = quoteChar then some (quoteChar, rest)
    else if e = backslashChar then some (backslashChar, rest)
    else if e = Char.ofNat 47 then some (Char.ofNat 47, rest)
    else if e = Char.ofNat 98 then some (Char.ofNat 8, rest)
    else if e = Char.ofNat 102 then some (Char.ofNat 12, rest)
    else if e = Char.ofNat 110 then some (Char.ofNat 10, rest)
    else if e = Char.ofNat 114 then some (Char.ofNat 13, rest)
    else if e = Char.ofNat 116 then some (Char.ofNat 9, rest)
    else if e = Char.ofNat 117 then
      match rest with
      | h1 :: h2 :: h3 :: h4 :: rest2 =>
        match hexVal h1, hexVal h2, hexVal h3, hexVal h4 with
        | some a, some b, some c, some d =>
            some (Char.ofNat (a * 4096 + b * 256 + c * 16 + d), rest2)
        | _, _, _, _ => none
      | _ => none
    else none

/-- Parse the body of a JSON string literal after the opening quote. -/
def parseStringBody (fuel : Nat) (s : List Char) : Option (List Char × List Char) :=
  match fuel, s with
  | 0, _ => none
  | _, [] => none
  | Nat.succ fuel, c :: rest =>
    if c = quoteChar then some ([], rest)
    else if c = backslashChar then
      match decodeEscape rest with
      | some (d, rest2) =>
        match parseStringBody fuel rest2 with
        | some (tail, rest3) => some (d :: tail, rest3)
        | none => none
      | none => none
    else if c.toNat < 32 then none
    else
      match parseStringBody fuel rest with
      | some (tail, rest2) => some (c :: tail, rest2)
      | none => none

/-- Character that may occur in a number lexeme after the first. -/
def numTailChar (c : Char) : Bool :=
  (48 ≤ c.toNat && c.toNat ≤ 57) || c.toNat = 46 || c.toNat = 101 ||
  c.toNat = 69 || c.toNat = 43 || c.toNat = 45

/-- Parse a number lexeme (kept verbatim); first character must be a digit
or a minus sign. -/
def parseNumber (s : List Char) : Option (List Char × List Char) :=
  match s with
  | [] => none
  | c :: _ =>
    if (48 ≤ c.toNat && c.toNat ≤ 57) || c.toNat = 45 then
      some (s.takeWhile numTailChar, s.dropWhile numTailChar)
    else none

mutual

/-- Parse one JSON value, returning it and the unconsumed remainder. -/
def parseValue : Nat → List Char → Option (Json × List Char)
  | 0, _ => none
  | Nat.succ fuel, s =>
    match s.dropWhile jsonWs with
    | [] => none
    | c :: rest =>
      if c = quoteChar then
        match parseStringBody (Nat.succ fuel) rest with
        | some (str, rest2) => some (Json.str str, rest2)
        | none => none
      else if c = lbrace then
        match (c :: rest).tail.dropWhile jsonWs with
        | d :: rest2 =>
          if d = rbrace then some (Json.obj [], rest2)
          else
            match parseMembers fuel (d :: rest2) with
            | some (fields, rest3) => some (Json.obj fields, rest3)
            | none => none
        | [] => none
      else if c = Char.ofNat 91 then
        match rest.dropWhile jsonWs with
        | d :: rest2 =>
          if d = Char.ofNat 93 then some (Json.arr [], rest2)
          else
            match parseElems fuel (d :: rest2) with
            | some (elems, rest3) => some (Json.arr elems, rest3)
            | none => none
        | [] => none
      else if List.isPrefixOf (goStr "true") (c :: rest) then
        some (Json.bool true, (c :: rest).drop 4)
      else if List.isPrefixOf (goStr "false") (c :: rest) then
        some (Json.bool false, (c :: rest).drop 5)
      else if List.isPrefixOf (goStr "null") (c :: rest) then
        some (Json.null, (c :: rest).drop 4)
      else
        match parseNumber (c :: rest) with
        | some (lit, rest2) => some (Json.num lit, rest2)
        | none => none

/-- Parse the members of a JSON object, positioned at a key. -/
def parseMembers : Nat → List Char → Option (List (List Char × Json) × List Char)
  | 0, _ => none
  | Nat.succ fuel, s =>
    match s.dropWhile jsonWs with
    | [] => none
    | c :: rest =>
      if c = quoteChar then
        match parseStringBody (Nat.succ fuel) rest with
        | some (key, rest2) =>
          match rest2.dropWhile jsonWs with
          | d :: rest3 =>
            if d = Char.ofNat 58 then
              match parseValue fuel rest3 with
              | some (v, rest4) =>
                match rest4.dropWhile jsonWs with
                | e :: rest5 =>
                  if e = Char.ofNat 44 then
                    match parseMembers fuel rest5 with
                    | some (fields, rest6) => some ((key, v) :: fields, rest6)
                    | none => none
                  else if e = rbrace then some ([(key, v)], rest5)
                  else none
                | [] => none
              | none => none
            else none
          | [] => none
        | none => none
      else none

/-- Parse the elements of a JSON array, positioned at a value. -/
def parseElems : Nat → List Char → Option (List Json × List Char)
  | 0, _ => none
  | Nat.succ fuel, s =>
    match parseValue fuel s with
    | some (v, rest) =>
      match rest.dropWhile jsonWs with
      | e :: rest2 =>
        if e = Char.ofNat 44 then
          match parseElems fuel rest2 with
          | some (elems, rest3) => some (v :: elems, rest3)
          | none => none
        else if e = Char.ofNat 93 then some ([v], rest2)
        else none
      | [] => none
    | none => none

end

/-- Parse an entire byte string as one JSON value, requiring only
whitespace after it, as `json.Unmarshal` does. -/
def parseJsonValue (s : List Char) : Option Json :=
  match parseValue (2 * s.length + 2) s with
  | some (v, rest) => if rest.dropWhile jsonWs = [] then some v else none
  | none => none

/-- Embeds `openai.AnswerChatResult` (`server/internal/openai`,
second snapshot): the structured payload decoded from model output.
Absent fields keep their zero values. -/
structure AnswerChatResult where
  transcript : List Char := []
  transcriptSubtitle : List Char := []
  response : List Char := []
  responseSubtitle : List Char := []
  isLast : Bool := false
deriving Repr, DecidableEq

/-- Apply one decoded object field to an `AnswerChatResult`, as
`json.Unmarshal` assigns struct fields: a string field accepts a JSON
string, the boolean field accepts a JSON boolean, `null` leaves the field
unchanged, a mismatched type is an error, unknown keys are skipped. -/
def setResultField (r : AnswerChatResult) (key : List Char) (v : Json) :
    Option AnswerChatResult :=
  if key = goStr "transcript" then
    match v with
    | Json.str s => some { r with transcript := s }
    | Json.null => some r
    | _ => none
  else if key = goStr "transcriptSubtitle" then
    match v with
    | Json.str s => some { r with transcriptSubtitle := s }
    | Json.null => some r
    | _ => none
  else if key = goStr "response" then
    match v with
    | Json.str s => some { r with response := s }
    | Json.null => some r
    | _ => none
  else if key = goStr "responseSubtitle" then
    match v with
    | Json.str s => some { r with responseSubtitle := s }
    | Json.null => some r
    | _ => none
  else if key = goStr "isLast" then
    match v with
    | Json.bool b => some { r with isLast := b }
    | Json.null => some r
    | _ => none
  else some r

/-- Fold the decoded fields left to right (later duplicates overwrite). -/
def applyResultFields : AnswerChatResult → List (List Char × Json) →
    Option AnswerChatResult
  | r, [] => some r
  | r, (k, v) :: rest =>
    match setResultField r k v with
    | some r2 => applyResultFields r2 rest
    | none => none

/-- Modelled from the spec: `json.Unmarshal(data, &result)` for
`openai.AnswerChatResult` (the Go standard library decoder is not under
`src/`; the spec requires the extracted span to "parse as valid structured
data").  Succeeds on a JSON object (assigning matching fields) or on
`null` (leaving the zero value); any other document or malformed text is
an error. -/
def unmarshalAnswerChatResult (s : List Char) : Option AnswerChatResult :=
  match parseJsonValue s with
  | some (Json.obj fields) => applyResultFields {} fields
  | some Json.null => some {}
  | _ => none

example :
    unmarshalAnswerChatResult (goStr "\x7b\"response\": \"hi\", \"isLast\": true\x7d") =
      some { response := goStr "hi", isLast := true } := by decide

example : unmarshalAnswerChatResult (goStr "\x7b\x7d") = some {} := by decide

example : unmarshalAnswerChatResult (goStr "[1, 2]") = none := by decide

/-! ### Roles, messages and capability clients -/

/-- Error values carried by Go `error` returns, modelled as their message. -/
abbrev GoErr : Type := List Char

/-- Embeds `openai.Role` (a string type). -/
abbrev Role : Type := List Char

/-- Embeds `openai.ROLE_SYSTEM`. -/
def ROLE_SYSTEM : Role := goStr "system"

/-- Embeds `openai.ROLE_ASSISTANT`. -/
def ROLE_ASSISTANT : Role := goStr "assistant"

/-- Embeds `openai.ROLE_USER`. -/
def ROLE_USER : Role := goStr "user"

/-- Embeds `openai.ChatMessage` (content, role). -/
structure ChatMessage where
  content : List Char
  role : Role

/-- The text-generation / transcription capability: one request's view of
the `openai.Client` interface.  The concrete HTTP client is transport
plumbing the spec places out of scope; each method is the outcome function
the provider realises during the request.  `speech` and `transcribe`
already include reading the returned body stream. -/
structure AIClient where
  chat : List ChatMessage → Except GoErr (List Char)
  chatWithAudio : List ChatMessage → List Char → List Char → Except GoErr (List Char)
  transcribe : List Nat → List Char → List Char → Except GoErr (List Char)
  speech : List Char → List Char → List Char → Except GoErr (List Nat)
  defaultTranscriptLanguage : List Char

/-- The speech-synthesis capability (`elevenlab.Client`): `TextToSpeech`
composed with reading the body stream, plus the voice the request's
`RandomVoice` call yields. -/
structure ElClient where
  textToSpeechBytes : List Char → List Char → Except GoErr (List Nat)
  randomVoice : List Char

/-- Modelled from the spec: `openai.GetSystemPrompt` executes the embedded
template `templates/system.txt`, which is not under `src/`; the prompt is a
deterministic rendering of role, topic and language ("build the
persona/task system instruction from role+topic+language"), modelled as a
tagged concatenation.  Parsing and executing the constant template cannot
fail, so the `error` branches of the source are dead here. -/
def GetSystemPrompt (role topic language : List Char) :
    Except GoErr (List Char) :=
  Except.ok (goStr "persona role: " ++ role ++ goStr "; topic: " ++ topic ++
    goStr "; language: " ++ language)

/-- Modelled from the spec: `util.SanitizeString` is not under `src/` and no
specification sentence or claim constrains it; modelled as the identity on
synthesis input. -/
def SanitizeString (s : List Char) : List Char := s

/-- Standard base64 alphabet (`encoding/base64.StdEncoding`). -/
def b64Alphabet : List Char :=
  goStr "ABCDEFGHIJKLMNOPQRSTUVWXYZabcdefghijklmnopqrstuvwxyz0123456789+/"

/-- Digit of the standard base64 alphabet. -/
def b64Digit (n : Nat) : Char := b64Alphabet.getD n (Char.ofNat 61)

/-- Embeds `base64.StdEncoding.EncodeToString` on a byte list. -/
def base64Encode : List Nat → List Char
  | [] => []
  | [a] => [b64Digit (a / 4 % 64), b64Digit (a % 4 * 16),
            Char.ofNat 61, Char.ofNat 61]
  | [a, b] => [b64Digit (a / 4 % 64), b64Digit (a % 4 * 16 + b / 16),
               b64Digit (b % 16 * 4), Char.ofNat 61]
  | a :: b :: c :: rest =>
      [b64Digit (a / 4 % 64), b64Digit (a % 4 * 16 + b / 16),
       b64Digit (b % 16 * 4 + c / 64), b64Digit (c % 64)] ++ base64Encode rest

/-- Separator inserted before an injected instruction. -/
def nl2 : List Char := goStr "\n\n"

/-- Embeds the copy-and-inject loop shared by the generators
(`server/internal/util/ai.go`, both snapshots): walk the copied history,
append the instruction to the content of the first system-role message,
stop at the first match (`break`), leave every other element as copied.
The Go original allocates a fresh backing array with `make` and `copy`
before the loop, so the write inside the loop never aliases the argument
slice; this function is the value-level result on that fresh copy. -/
def injectInstruction (instr : List Char) : List ChatMessage → List ChatMessage
  | [] => []
  | m :: rest =>
    if m.role = ROLE_SYSTEM then
      { m with content := m.content ++ nl2 ++ instr } :: rest
    else m :: injectInstruction instr rest

namespace Util1

/-- JSON-shape instruction of `GenerateStartChat` (first snapshot of
`server/internal/util/ai.go`). -/
def startJSONInstruction (subtitleLanguage : List Char) : List Char :=
  if subtitleLanguage = [] then
    goStr "Respond in JSON with: \x7b\"response\": \"your greeting\"\x7d"
  else
    goStr "Respond in JSON with: \x7b\"response\": \"your greeting\", \"responseSubtitle\": \"translation of your greeting in " ++
    subtitleLanguage ++ goStr "\"\x7d"

/-- Embeds `util.GenerateStartChat` (first snapshot, ai.go lines 40-83):
system prompt, greeting request, model call, fence-tolerant extraction,
decode, hard failure on an empty reply. -/
def GenerateStartChat (ai : Option AIClient)
    (role topic language subtitleLanguage : List Char) :
    Except GoErr (List Char × AnswerChatResult) :=
  match ai with
  | none => Except.error (goStr "unsupported client")
  | some ai =>
    match GetSystemPrompt role topic language with
    | Except.error e => Except.error e
    | Except.ok systemPrompt =>
      let jsonInstruction := startJSONInstruction subtitleLanguage
      let messages : List ChatMessage :=
        [⟨systemPrompt, ROLE_SYSTEM⟩,
         ⟨goStr "Start the conversation with a brief greeting and introduce the topic. " ++
          jsonInstruction, ROLE_USER⟩]
      match ai.chat messages with
      | Except.error e => Except.error e
      | Except.ok rawResponse =>
        match unmarshalAnswerChatResult (extractJSON rawResponse) with
        | none => Except.error (goStr "failed to parse initial chat JSON")
        | some result =>
          if result.response = [] then
            Except.error (goStr "empty initial chat response")
          else Except.ok (systemPrompt, result)

/-- JSON-shape instruction of `GenerateTextFromAudio` (first snapshot). -/
def answerJSONInstruction (subtitleLanguage : List Char) : List Char :=
  if subtitleLanguage = [] then
    goStr "You MUST respond in JSON with: \x7b\"transcript\": \"word-for-word transcription of the user\x27s audio in the language they spoke\", \"response\": \"your reply\", \"isLast\": false\x7d. Set isLast to true only when the conversation is ending (user says goodbye or you decide to end it). When isLast is true, respond with a natural farewell."
  else
    goStr "You MUST respond in JSON with: \x7b\"transcript\": \"word-for-word transcription of the user\x27s audio in the language they spoke\", \"transcriptSubtitle\": \"translation of transcript in " ++
    subtitleLanguage ++
    goStr "\", \"response\": \"your reply\", \"responseSubtitle\": \"translation of your reply in " ++
    subtitleLanguage ++
    goStr "\", \"isLast\": false\x7d. Set isLast to true only when the conversation is ending (user says goodbye or you decide to end it). When isLast is true, respond with a natural farewell."

/-- The enriched history `GenerateTextFromAudio` sends to the model: the
copied history with the instruction injected into its first system turn. -/
def textFromAudioMessages (history : List ChatMessage)
    (subtitleLanguage : List Char) : List ChatMessage :=
  injectInstruction (answerJSONInstruction subtitleLanguage) history

/-- Embeds `util.GenerateTextFromAudio` (first snapshot, ai.go lines
85-124): enrich the copied history, audio model call, fence-tolerant
extraction, decode, hard failure on an empty reply. -/
def GenerateTextFromAudio (ai : Option AIClient) (history : List ChatMessage)
    (audioData audioFormat subtitleLanguage : List Char) :
    Except GoErr AnswerChatResult :=
  match ai with
  | none => Except.error (goStr "unsupported client")
  | some ai =>
    let enriched := textFromAudioMessages history subtitleLanguage
    match ai.chatWithAudio enriched audioData audioFormat with
    | Except.error e => Except.error e
    | Except.ok rawResponse =>
      match unmarshalAnswerChatResult (extractJSON rawResponse) with
      | none => Except.error (goStr "failed to parse answer chat JSON")
      | some result =>
        if result.response = [] then
          Except.error (goStr "empty chat response")
        else Except.ok result

/-- JSON-shape instruction of `GenerateEndChat` (first snapshot). -/
def endJSONInstruction (subtitleLanguage : List Char) : List Char :=
  if subtitleLanguage = [] then
    goStr "The user has decided to end the conversation. You MUST respond in JSON with: \x7b\"response\": \"your farewell\", \"isLast\": true\x7d. Provide a natural farewell message."
  else
    goStr "The user has decided to end the conversation. You MUST respond in JSON with: \x7b\"response\": \"your farewell\", \"responseSubtitle\": \"translation of your farewell in " ++
    subtitleLanguage ++
    goStr "\"\x7d. Provide a natural farewell message."

/-- The enriched history `GenerateEndChat` sends to the model. -/
def endChatMessages (history : List ChatMessage)
    (subtitleLanguage : List Char) : List ChatMessage :=
  injectInstruction (endJSONInstruction subtitleLanguage) history

/-- Embeds `util.GenerateEndChat` (first snapshot, ai.go lines 126-162):
enrich the copied history, model call, fence-tolerant extraction, decode,
then force `IsLast` to true.  Note the source has no emptiness check on
the reply here. -/
def GenerateEndChat (ai : Option AIClient) (history : List ChatMessage)
    (subtitleLanguage : List Char) : Except GoErr AnswerChatResult :=
  match ai with
  | none => Except.error (goStr "unsupported client")
  | some ai =>
    let messages := endChatMessages history subtitleLanguage
    match ai.chat messages with
    | Except.error e => Except.error e
    | Except.ok rawResponse =>
      match unmarshalAnswerChatResult (extractJSON rawResponse) with
      | none => Except.error (goStr "failed to parse end chat JSON")
      | some result => Except.ok { result with isLast := true }

/-- Embeds `util.GenerateSpeech` (first snapshot, ai.go lines 164-182): a
missing synthesis client yields empty audio and no error; otherwise the
sanitized text is synthesized, read and base64-encoded. -/
def GenerateSpeech (el : Option ElClient) (text voice : List Char) :
    Except GoErr (List Char) :=
  match el with
  | none => Except.ok []
  | some c =>
    let speechInput := SanitizeString text
    match c.textToSpeechBytes speechInput voice with
    | Except.error e => Except.error e
    | Except.ok speechByte => Except.ok (base64Encode speechByte)

end Util1

namespace Util2

/-- JSON-shape instruction of `GenerateStartChat` (second snapshot of
`server/internal/util/ai.go`). -/
def startJSONInstruction (subtitleLanguage : List Char) : List Char :=
  if subtitleLanguage = [] then
    goStr "Respond in JSON with: \x7b\"response\": \"your greeting\"\x7d"
  else
    goStr "Respond in JSON with: \x7b\"response\": \"your greeting\", \"responseSubtitle\": \"complete and accurate translation of your entire greeting in " ++
    subtitleLanguage ++ goStr "\"\x7d"

/-- Embeds `util.GenerateStartChat` (second snapshot, ai.go lines 194-235):
system prompt, greeting request, model call, direct decode of the raw
output, hard failure on an empty reply. -/
def GenerateStartChat (ai : Option AIClient)
    (role topic language subtitleLanguage : List Char) :
    Except GoErr (List Char × AnswerChatResult) :=
  match ai with
  | none => Except.error (goStr "unsupported client")
  | some ai =>
    match GetSystemPrompt role topic language with
    | Except.error e => Except.error e
    | Except.ok systemPrompt =>
      let jsonInstruction := startJSONInstruction subtitleLanguage
      let messages : List ChatMessage :=
        [⟨systemPrompt, ROLE_SYSTEM⟩,
         ⟨goStr "Start the conversation with a brief greeting and introduce the topic. " ++
          jsonInstruction, ROLE_USER⟩]
      match ai.chat messages with
      | Except.error e => Except.error e
      | Except.ok rawJSON =>
        match unmarshalAnswerChatResult rawJSON with
        | none => Except.error (goStr "failed to parse initial chat JSON")
        | some result =>
          if result.response = [] then
            Except.error (goStr "empty initial chat response")
          else Except.ok (systemPrompt, result)

/-- Embeds `util.TranscribeSpeech` (second snapshot, ai.go lines 237-243). -/
def TranscribeSpeech (ai : Option AIClient) (audio : List Nat)
    (filename language : List Char) : Except GoErr (List Char) :=
  match ai with
  | none => Except.error (goStr "unsupported client")
  | some ai => ai.transcribe audio filename language

/-- JSON-shape instruction of `GenerateAnswerChat` (second snapshot). -/
def answerJSONInstruction (subtitleLanguage : List Char) : List Char :=
  if subtitleLanguage = [] then
    goStr "You MUST respond in JSON with: \x7b\"response\": \"your reply\", \"isLast\": false\x7d. Set isLast to true only when the conversation is ending (user says goodbye or you decide to end it). When isLast is true, respond with a natural farewell."
  else
    goStr "You MUST respond in JSON with: \x7b\"response\": \"your reply\", \"responseSubtitle\": \"complete and accurate translation of your entire reply in " ++
    subtitleLanguage ++
    goStr "\", \"transcriptSubtitle\": \"complete and accurate translation of the user\x27s entire message in " ++
    subtitleLanguage ++
    goStr "\", \"isLast\": false\x7d. Set isLast to true only when the conversation is ending (user says goodbye or you decide to end it). When isLast is true, respond with a natural farewell."

/-- The message list `GenerateAnswerChat` sends to the model: the copied
history with the instruction injected into its first system turn, followed
by the recognized transcript as a fresh user message. -/
def answerMessages (history : List ChatMessage)
    (transcript subtitleLanguage : List Char) : List ChatMessage :=
  injectInstruction (answerJSONInstruction subtitleLanguage) history ++
    [⟨transcript, ROLE_USER⟩]

/-- Embeds `util.GenerateAnswerChat` (second snapshot, ai.go lines
245-287): enrich the copied history, add the transcript as the user turn,
model call, direct decode, hard failure on an empty reply. -/
def GenerateAnswerChat (ai : Option AIClient) (history : List ChatMessage)
    (transcript subtitleLanguage : List Char) :
    Except GoErr AnswerChatResult :=
  match ai with
  | none => Except.error (goStr "unsupported client")
  | some ai =>
    let messages := answerMessages history transcript subtitleLanguage
    match ai.chat messages with
    | Except.error e => Except.error e
    | Except.ok rawJSON =>
      match unmarshalAnswerChatResult rawJSON with
      | none => Except.error (goStr "failed to parse answer chat JSON")
      | some result =>
        if result.response = [] then
          Except.error (goStr "empty chat response")
        else Except.ok result

/-- JSON-shape instruction of `GenerateEndChat` (second snapshot). -/
def endJSONInstruction (subtitleLanguage : List Char) : List Char :=
  if subtitleLanguage = [] then
    goStr "The user has decided to end the conversation. You MUST respond in JSON with: \x7b\"response\": \"your farewell\", \"isLast\": true\x7d. Provide a natural farewell message."
  else
    goStr "The user has decided to end the conversation. You MUST respond in JSON with: \x7b\"response\": \"your farewell\", \"responseSubtitle\": \"complete and accurate translation of your entire farewell in " ++
    subtitleLanguage ++
    goStr "\", \"isLast\": true\x7d. Provide a natural farewell message."

/-- The enriched history `GenerateEndChat` sends to the model. -/
def endChatMessages (history : List ChatMessage)
    (subtitleLanguage : List Char) : List ChatMessage :=
  injectInstruction (endJSONInstruction subtitleLanguage) history

/-- Embeds `util.GenerateEndChat` (second snapshot, ai.go lines 289-323):
enrich the copied history, model call, direct decode, then force `IsLast`
to true.  Note the source has no emptiness check on the reply here. -/
def GenerateEndChat (ai : Option AIClient) (history : List ChatMessage)
    (subtitleLanguage : List Char) : Except GoErr AnswerChatResult :=
  match ai with
  | none => Except.error (goStr "unsupported client")
  | some ai =>
    let messages := endChatMessages history subtitleLanguage
    match ai.chat messages with
    | Except.error e => Except.error e
    | Except.ok rawJSON =>
      match unmarshalAnswerChatResult rawJSON with
      | none => Except.error (goStr "failed to parse end chat JSON")
      | some result => Except.ok { result with isLast := true }

/-- Embeds `util.GenerateSpeech` (second snapshot, ai.go lines 325-344):
the OpenAI-backed variant; a missing client yields empty audio and no
error; otherwise the sanitized text is synthesized, read and
base64-encoded. -/
def GenerateSpeech (ai : Option AIClient) (text voice language : List Char) :
    Except GoErr (List Char) :=
  match ai with
  | none => Except.ok []
  | some c =>
    let speechInput := SanitizeString text
    match c.speech speechInput voice language with
    | Except.error e => Except.error e
    | Except.ok speechByte => Except.ok (base64Encode speechByte)

end Util2

/-! ### Language configuration (`server/internal/config`) -/

/-- Embeds `config.CodeToLanguage`. -/
def CodeToLanguage : List (List Char × List Char) :=
  [(goStr "en-US", goStr "en"), (goStr "id-ID", goStr "id"),
   (goStr "es-ES", goStr "es"), (goStr "fr-FR", goStr "fr"),
   (goStr "de-DE", goStr "de"), (goStr "pt-BR", goStr "pt"),
   (goStr "it-IT", goStr "it"), (goStr "ja-JP", goStr "ja"),
   (goStr "ko-KR", goStr "ko"), (goStr "zh-CN", goStr "zh"),
   (goStr "ar-SA", goStr "ar"), (goStr "hi-IN", goStr "hi"),
   (goStr "ru-RU", goStr "ru"), (goStr "nl-NL", goStr "nl"),
   (goStr "tr-TR", goStr "tr")]

/-- Embeds `config.LanguageToCode`. -/
def LanguageToCode : List (List Char × List Char) :=
  CodeToLanguage.map (fun p => (p.snd, p.fst))

/-- Embeds `config.LanguageNames`. -/
def LanguageNames : List (List Char × List Char) :=
  [(goStr "en-US", goStr "English"), (goStr "id-ID", goStr "Bahasa Indonesia"),
   (goStr "es-ES", goStr "Spanish"), (goStr "fr-FR", goStr "French"),
   (goStr "de-DE", goStr "German"), (goStr "pt-BR", goStr "Portuguese"),
   (goStr "it-IT", goStr "Italian"), (goStr "ja-JP", goStr "Japanese"),
   (goStr "ko-KR", goStr "Korean"), (goStr "zh-CN", goStr "Chinese (Mandarin)"),
   (goStr "ar-SA", goStr "Arabic"), (goStr "hi-IN", goStr "Hindi"),
   (goStr "ru-RU", goStr "Russian"), (goStr "nl-NL", goStr "Dutch"),
   (goStr "tr-TR", goStr "Turkish")]

/-- Embeds `config.GetLanguage`: map a locale code to a short language tag,
defaulting to English. -/
def GetLanguage (code : List Char) : List Char :=
  (CodeToLanguage.lookup code).getD (goStr "en")

/-- Embeds `config.GetCode`: map a short language tag to a locale code,
defaulting to en-US. -/
def GetCode (language : List Char) : List Char :=
  (LanguageToCode.lookup language).getD (goStr "en-US")

/-- Embeds `config.GetLanguageName`: map a locale code to a display name,
defaulting to English. -/
def GetLanguageName (code : List Char) : List Char :=
  (LanguageNames.lookup code).getD (goStr "English")

/-! ### Persistence model (`server/internal/data`)

The sessions table and the turns table; the turns table is "keyed by an
auto-incrementing sequence and a foreign reference to the owning session,
holding role, text, and optional audio bytes, ordered by sequence", so the
store keeps turns as one insertion-ordered list of (owner, entry) pairs. -/

/-- Embeds `data.Entry` (role, text, optional audio). -/
structure Entry where
  role : List Char
  text : List Char
  audio : List Char := []
deriving Repr, DecidableEq

/-- Embeds `data.ChatUser` (second snapshot, with the voice column). -/
structure ChatUser where
  id : List Char
  secret : List Char
  language : List Char
  subtitleLanguage : List Char
  voice : List Char
deriving Repr, DecidableEq

/-- The persistent store: the sessions table and the insertion-ordered
turns table. -/
structure DB where
  users : List ChatUser
  chats : List (List Char × Entry)
deriving Repr, DecidableEq

/-- Embeds `data.GetChatUser`: fetch the session row by id; a missing row
surfaces as the query error the handler receives. -/
def GetChatUser (db : DB) (id : List Char) : Except GoErr ChatUser :=
  match db.users.find? (fun u => u.id == id) with
  | some u => Except.ok u
  | none => Except.error (goStr "sql: no rows in result set")

/-- Modelled from the spec: `data.GetChatsByChatUserID` is not under
`src/`; per the persisted-state layout it returns the session's turns in
sequence order. -/
def GetChatsByChatUserID (db : DB) (id : List Char) : List Entry :=
  (db.chats.filter (fun p => p.fst == id)).map Prod.snd

/-- Modelled from the spec: `util.ConvertToChatMessage` is not under
`src/`; history rows become model messages with the same role and text in
the same order. -/
def ConvertToChatMessage (entries : List Entry) : List ChatMessage :=
  entries.map (fun e => ⟨e.text, e.role⟩)

/-- Modelled from the spec: `util.GenerateSubtitle` is not under `src/`.
The spec states subtitle-generation and translation "failures are swallowed
and degrade to an empty subtitle", so on failure the call yields the empty
string alongside the error the handler merely logs. -/
def GenerateSubtitle (outcome : Except GoErr (List Char)) :
    List Char × Option GoErr :=
  match outcome with
  | Except.ok s => (s, none)
  | Except.error e => ([], some e)

/-- Modelled from the spec: `database/sql` transaction semantics (standard
library, not under `src/`): writes issued through a transaction are
buffered and become visible only on `Commit`; `Rollback` — deferred by
every handler — discards them, so any failure before the commit leaves the
store exactly as it was.  The oracle fixes which of one request's
transaction steps succeed and which generated session id the insert uses. -/
structure DbOracle where
  beginOk : Bool := true
  insertUserOk : Bool := true
  insertChatsOk : Bool := true
  commitOk : Bool := true
  newId : List Char := []
deriving Repr

/-! ### Response envelopes (`server/internal/model`)

`model.StartChatRequest` is under `src/`; the response structs are absent
but their shape is pinned by the handlers and by spec section 6. -/

/-- Embeds `model.StartChatRequest`. -/
structure StartChatRequest where
  role : List Char := []
  topic : List Char := []
  language : List Char := []
  subtitleLanguage : List Char := []
deriving Repr, DecidableEq

/-- Modelled from the spec: `model.Chat` — one turn's text, optional audio
and optional subtitle, as returned to the UI. -/
structure Chat where
  text : List Char := []
  audio : List Char := []
  subtitle : List Char := []
deriving Repr, DecidableEq

/-- Modelled from the spec: `model.StartChatResponse` — session identity,
plaintext secret, language and the greeting. -/
structure StartChatResponse where
  id : List Char
  secret : List Char
  language : List Char
  chat : Chat
deriving Repr, DecidableEq

/-- Modelled from the spec: `model.AnswerChatResponse` — language, ending
flag, recognized prompt and the assistant answer. -/
structure AnswerChatResponse where
  language : List Char
  isLast : Bool
  prompt : Chat := {}
  answer : Chat
deriving Repr, DecidableEq

/-- Payload of one HTTP reply. -/
inductive RespData where
  | empty : RespData
  | start : StartChatResponse → RespData
  | answer : AnswerChatResponse → RespData
deriving Repr, DecidableEq

/-- Modelled from the spec: `util.SendResponse` wraps data, message and
status into the JSON envelope; modelled as the envelope record itself. -/
structure HttpResponse where
  data : RespData
  message : List Char
  status : Nat
deriving Repr, DecidableEq

/-- Shorthand for an error reply with no data. -/
def errResponse (message : List Char) (status : Nat) : HttpResponse :=
  ⟨RespData.empty, message, status⟩

/-- Voice selection shared by both Start handlers: `RandomVoice` when a
synthesis client is configured, the empty string otherwise. -/
def elVoice : Option ElClient → List Char
  | some c => c.randomVoice
  | none => []

namespace HandlerV2

/-- Environment of one Start request (second handler snapshot): the
capability clients, the decoded body (or its decode failure), the random
secret minted by `util.GenerateRandom`, the outcome of `util.CreateHash`
(both utilities are bcrypt-style helpers not under `src/`, modelled from
the spec: a random secret is minted and only its one-way hash stored), and
the transaction oracle. -/
structure StartEnv where
  ai : AIClient
  el : Option ElClient
  reqBody : Except GoErr StartChatRequest
  generatedSecret : List Char
  createHash : List Char → Except GoErr (List Char)
  dbo : DbOracle

/-- Embeds `handler.StartChat` (second snapshot, handler file lines
543-647): decode, resolve languages, generate the greeting, pick a voice,
synthesize, mint and hash the secret, then — inside one transaction —
create the session row and the system+greeting turn batch, committing only
after both inserts succeed; every failure path leaves the store untouched
(the deferred rollback). -/
def StartChat (env : StartEnv) (db : DB) : HttpResponse × DB :=
  match env.reqBody with
  | Except.error _ => (errResponse (goStr "failed to read request") 400, db)
  | Except.ok req =>
    let chatLanguage :=
      if req.language = [] then env.ai.defaultTranscriptLanguage
      else GetLanguage req.language
    let subtitleLanguage :=
      if req.subtitleLanguage = [] then []
      else GetLanguageName req.subtitleLanguage
    match Util2.GenerateStartChat (some env.ai) req.role req.topic
        (GetLanguageName req.language) subtitleLanguage with
    | Except.error _ => (errResponse (goStr "failed to prepare chat") 500, db)
    | Except.ok (systemPrompt, initialResult) =>
      let voice := elVoice env.el
      match Util1.GenerateSpeech env.el initialResult.response voice with
      | Except.error _ =>
          (errResponse (goStr "failed to generate speech") 500, db)
      | Except.ok initialAudio =>
        let plainSecret := env.generatedSecret
        match env.createHash plainSecret with
        | Except.error _ =>
            (errResponse (goStr "failed to prepare chat") 500, db)
        | Except.ok hashed =>
          if env.dbo.beginOk = false then
            (errResponse (goStr "failed to create new chat") 500, db)
          else
            let newUser : ChatUser :=
              ⟨env.dbo.newId, hashed, chatLanguage,
               GetLanguage req.subtitleLanguage, voice⟩
            if env.dbo.insertUserOk = false then
              (errResponse (goStr "failed to create new chat") 500, db)
            else if env.dbo.insertChatsOk = false then
              (errResponse (goStr "failed to create chat") 500, db)
            else if env.dbo.commitOk = false then
              (errResponse (goStr "failed to create new chat") 500, db)
            else
              let db2 : DB :=
                ⟨db.users ++ [newUser],
                 db.chats ++
                   [(newUser.id, ⟨ROLE_SYSTEM, systemPrompt, []⟩),
                    (newUser.id,
                     ⟨ROLE_ASSISTANT, initialResult.response, initialAudio⟩)]⟩
              (⟨RespData.start
                  ⟨newUser.id, plainSecret, req.language,
                   ⟨initialResult.response, initialAudio,
                    initialResult.responseSubtitle⟩⟩,
                goStr "a new chat created", 200⟩, db2)

/-- Environment of one Answer request (second handler snapshot): the
capability clients, the bcrypt comparison (`util.CompareHash` is not under
`src/`; modelled from the spec as the predicate "presented secret matches
the stored hash"), the multipart-file stage outcomes, and the transaction
oracle. -/
structure AnswerEnv where
  ai : AIClient
  el : Option ElClient
  compareHash : List Char → List Char → Bool
  getChatsOk : Bool := true
  formFileOk : Bool := true
  fileHeader : Option (List Char) := some (goStr "audio.webm")
  readFileRes : Except GoErr (List Nat)
  dbo : DbOracle

/-- Embeds `handler.AnswerChat` (second snapshot, handler file lines
649-793): authenticate (missing credentials 401, unknown session 404,
hash mismatch 401), load history, read the audio file, transcribe,
generate the reply from the enriched history plus the recognized
transcript, overwrite the model's transcript echo with the recognizer's
transcript, synthesize, then append the user+assistant turn batch in one
transaction. -/
def AnswerChat (env : AnswerEnv) (userID userSecret : List Char) (db : DB) :
    HttpResponse × DB :=
  if userID = [] ∨ userSecret = [] then
    (errResponse (goStr "missing required authentication") 401, db)
  else
    match GetChatUser db userID with
    | Except.error _ =>
        (errResponse (goStr "failed to get chat user") 404, db)
    | Except.ok user =>
      if env.compareHash userSecret user.secret = false then
        (errResponse (goStr "invalid user secret") 401, db)
      else if env.getChatsOk = false then
        (errResponse (goStr "failed to get chat") 500, db)
      else
        let entries := GetChatsByChatUserID db user.id
        if env.formFileOk = false then
          (errResponse (goStr "failed to read file") 500, db)
        else
          match env.fileHeader with
          | none => (errResponse (goStr "required file is missing") 400, db)
          | some filename =>
            match env.readFileRes with
            | Except.error _ =>
                (errResponse (goStr "failed to read audio file") 500, db)
            | Except.ok audioBytes =>
              let subtitleLanguage :=
                if user.subtitleLanguage = [] then []
                else GetLanguageName (GetCode user.subtitleLanguage)
              match Util2.TranscribeSpeech (some env.ai) audioBytes filename
                  user.language with
              | Except.error _ =>
                  (errResponse (goStr "failed to transcribe speech") 500, db)
              | Except.ok transcript =>
                let history := ConvertToChatMessage entries
                match Util2.GenerateAnswerChat (some env.ai) history
                    transcript subtitleLanguage with
                | Except.error e =>
                    (errResponse
                      (goStr "failed to get chat completion: " ++ e) 500, db)
                | Except.ok answerResult0 =>
                  let answerResult :=
                    { answerResult0 with transcript := transcript }
                  match Util1.GenerateSpeech env.el answerResult.response
                      user.voice with
                  | Except.error _ =>
                      (errResponse (goStr "failed to generate speech") 500, db)
                  | Except.ok answerAudio =>
                    if env.dbo.beginOk = false then
                      (errResponse (goStr "failed to create new chat") 500, db)
                    else if env.dbo.insertChatsOk = false then
                      (errResponse (goStr "failed to create chat") 500, db)
                    else if env.dbo.commitOk = false then
                      (errResponse (goStr "failed to create new chat") 500, db)
                    else
                      let db2 : DB :=
                        ⟨db.users,
                         db.chats ++
                           [(userID, ⟨ROLE_USER, answerResult.transcript, []⟩),
                            (userID,
                             ⟨ROLE_ASSISTANT, answerResult.response,
                              answerAudio⟩)]⟩
                      (⟨RespData.answer
                          ⟨GetCode user.language, answerResult.isLast,
                           ⟨answerResult.transcript, [],
                            answerResult.transcriptSubtitle⟩,
                           ⟨answerResult.response, answerAudio,
                            answerResult.responseSubtitle⟩⟩,
                        goStr "success", 200⟩, db2)

/-- Environment of one End request (second handler snapshot). -/
structure EndEnv where
  ai : AIClient
  el : Option ElClient
  compareHash : List Char → List Char → Bool
  getChatsOk : Bool := true
  dbo : DbOracle

/-- Embeds `handler.EndChat` (second snapshot, handler file lines
795-887): authenticate exactly as Answer does, load history, generate the
farewell, synthesize, append the single assistant turn in one transaction,
and always report the session as ended. -/
def EndChat (env : EndEnv) (userID userSecret : List Char) (db : DB) :
    HttpResponse × DB :=
  if userID = [] ∨ userSecret = [] then
    (errResponse (goStr "missing required authentication") 401, db)
  else
    match GetChatUser db userID with
    | Except.error _ =>
        (errResponse (goStr "failed to get chat user") 404, db)
    | Except.ok user =>
      if env.compareHash userSecret user.secret = false then
        (errResponse (goStr "invalid user secret") 401, db)
      else if env.getChatsOk = false then
        (errResponse (goStr "failed to get chat") 500, db)
      else
        let entries := GetChatsByChatUserID db user.id
        let subtitleLanguage :=
          if user.subtitleLanguage = [] then []
          else GetLanguageName (GetCode user.subtitleLanguage)
        let history := ConvertToChatMessage entries
        match Util2.GenerateEndChat (some env.ai) history subtitleLanguage with
        | Except.error _ =>
            (errResponse (goStr "failed to get chat completion") 500, db)
        | Except.ok endResult =>
          match Util1.GenerateSpeech env.el endResult.response user.voice with
          | Except.error _ =>
              (errResponse (goStr "failed to generate speech") 500, db)
          | Except.ok answerAudio =>
            if env.dbo.beginOk = false then
              (errResponse (goStr "failed to create new chat") 500, db)
            else if env.dbo.insertChatsOk = false then
              (errResponse (goStr "failed to create chat") 500, db)
            else if env.dbo.commitOk = false then
              (errResponse (goStr "failed to create new chat") 500, db)
            else
              let db2 : DB :=
                ⟨db.users,
                 db.chats ++
                   [(userID,
                     ⟨ROLE_ASSISTANT, endResult.response, answerAudio⟩)]⟩
              (⟨RespData.answer
                  ⟨GetCode user.language, true, {},
                   ⟨endResult.response, answerAudio,
                    endResult.responseSubtitle⟩⟩,
                goStr "success", 200⟩, db2)

end HandlerV2

namespace HandlerV1

/-- Environment of one Start request (first handler snapshot).  This
snapshot calls `util.GetChatAssets`, `util.GenerateSubtitle` and a default
transcript language; `GetChatAssets` is not under `src/` and is modelled
from the spec as the outcome producing the persona system prompt and the
opening greeting text.  `subtitleRes` is the translation outcome
`util.GenerateSubtitle` observes for a given text and language name. -/
structure StartEnv where
  defaultTranscriptLanguage : List Char
  el : Option ElClient
  reqBody : Except GoErr StartChatRequest
  getChatAssets : Except GoErr (List Char × List Char)
  subtitleRes : List Char → List Char → Except GoErr (List Char)
  generatedSecret : List Char
  createHash : List Char → Except GoErr (List Char)
  dbo : DbOracle

/-- Embeds `handler.StartChat` (first snapshot, handler file lines
100-214): decode, resolve languages, obtain prompt and greeting, pick a
voice, synthesize, then generate the optional subtitle — a subtitle
failure is only logged and the turn continues — hash the secret and write
the session row plus the system+greeting batch in one transaction. -/
def StartChat (env : StartEnv) (db : DB) : HttpResponse × DB :=
  match env.reqBody with
  | Except.error _ => (errResponse (goStr "failed to read request") 400, db)
  | Except.ok req =>
    let chatLanguage :=
      if req.language = [] then env.defaultTranscriptLanguage
      else GetLanguage req.language
    let subtitleLanguage :=
      if req.subtitleLanguage = [] then []
      else GetLanguageName req.subtitleLanguage
    match env.getChatAssets with
    | Except.error _ => (errResponse (goStr "failed to prepare chat") 500, db)
    | Except.ok (systemPrompt, initialText) =>
      let voice := elVoice env.el
      match Util1.GenerateSpeech env.el initialText voice with
      | Except.error _ =>
          (errResponse (goStr "failed to generate speech") 500, db)
      | Except.ok initialAudio =>
        let initialSubtitle :=
          if subtitleLanguage = [] then []
          else (GenerateSubtitle (env.subtitleRes initialText subtitleLanguage)).fst
        match env.createHash env.generatedSecret with
        | Except.error _ =>
            (errResponse (goStr "failed to prepare chat") 500, db)
        | Except.ok hashed =>
          if env.dbo.beginOk = false then
            (errResponse (goStr "failed to create new chat") 500, db)
          else
            let newUser : ChatUser :=
              ⟨env.dbo.newId, hashed, chatLanguage,
               GetLanguage req.subtitleLanguage, voice⟩
            if env.dbo.insertUserOk = false then
              (errResponse (goStr "failed to create new chat") 500, db)
            else if env.dbo.insertChatsOk = false then
              (errResponse (goStr "failed to create chat") 500, db)
            else if env.dbo.commitOk = false then
              (errResponse (goStr "failed to create new chat") 500, db)
            else
              let db2 : DB :=
                ⟨db.users ++ [newUser],
                 db.chats ++
                   [(newUser.id, ⟨ROLE_SYSTEM, systemPrompt, []⟩),
                    (newUser.id, ⟨ROLE_ASSISTANT, initialText, initialAudio⟩)]⟩
              (⟨RespData.start
                  ⟨newUser.id, env.generatedSecret, req.language,
                   ⟨initialText, initialAudio, initialSubtitle⟩⟩,
                goStr "a new chat created", 200⟩, db2)

/-- Environment of one Answer request (first handler snapshot).  This
snapshot sends the audio itself to the model through a string-returning
`util.GenerateTextFromAudio` that is not under `src/` (the snapshot under
`src/` has a different, struct-returning signature); it is modelled from
the spec as the outcome of the reply-generation call on the history and the
base64 audio.  The `[END]` marker convention and the subtitle calls are
embedded from the handler itself. -/
structure AnswerEnv where
  ai : AIClient
  el : Option ElClient
  compareHash : List Char → List Char → Bool
  getChatsOk : Bool := true
  formFileOk : Bool := true
  fileHeader : Option (List Char) := some (goStr "audio.webm")
  readFileRes : Except GoErr (List Nat)
  generateTextFromAudio : List ChatMessage → List Char → Except GoErr (List Char)
  subtitleRes : List Char → List Char → Except GoErr (List Char)
  dbo : DbOracle

/-- Embeds `handler.AnswerChat` (first snapshot, handler file lines
216-375): authenticate, load history, read and transcribe the audio,
generate the reply text from the audio, honour the `[END]` marker,
synthesize, generate the two optional subtitles — their failures are only
logged and the turn continues — then append the user+assistant batch in
one transaction. -/
def AnswerChat (env : AnswerEnv) (userID userSecret : List Char) (db : DB) :
    HttpResponse × DB :=
  if userID = [] ∨ userSecret = [] then
    (errResponse (goStr "missing required authentication") 401, db)
  else
    match GetChatUser db userID with
    | Except.error _ =>
        (errResponse (goStr "failed to get chat user") 404, db)
    | Except.ok user =>
      if env.compareHash userSecret user.secret = false then
        (errResponse (goStr "invalid user secret") 401, db)
      else if env.getChatsOk = false then
        (errResponse (goStr "failed to get chat") 500, db)
      else
        let entries := GetChatsByChatUserID db user.id
        if env.formFileOk = false then
          (errResponse (goStr "failed to read file") 500, db)
        else
          match env.fileHeader with
          | none => (errResponse (goStr "required file is missing") 400, db)
          | some filename =>
            match env.readFileRes with
            | Except.error _ =>
                (errResponse (goStr "failed to read audio file") 500, db)
            | Except.ok audioBytes =>
              match Util2.TranscribeSpeech (some env.ai) audioBytes filename
                  user.language with
              | Except.error _ =>
                  (errResponse (goStr "failed to transcribe speech") 500, db)
              | Except.ok transcriptText =>
                let audioBase64 := base64Encode audioBytes
                let history := ConvertToChatMessage entries
                match env.generateTextFromAudio history audioBase64 with
                | Except.error e =>
                    (errResponse
                      (goStr "failed to get chat completion: " ++ e) 500, db)
                | Except.ok answerText0 =>
                  let isLast := List.isPrefixOf (goStr "[END]") answerText0
                  let answerText :=
                    if isLast then trimSpace (answerText0.drop 5)
                    else answerText0
                  match Util1.GenerateSpeech env.el answerText user.voice with
                  | Except.error _ =>
                      (errResponse (goStr "failed to generate speech") 500, db)
                  | Except.ok answerAudio =>
                    let subtitleLangName :=
                      GetLanguageName (GetCode user.subtitleLanguage)
                    let answerSubtitle :=
                      if user.subtitleLanguage = [] then []
                      else (GenerateSubtitle
                        (env.subtitleRes answerText subtitleLangName)).fst
                    let promptSubtitle :=
                      if user.subtitleLanguage = [] then []
                      else (GenerateSubtitle
                        (env.subtitleRes transcriptText subtitleLangName)).fst
                    if env.dbo.beginOk = false then
                      (errResponse (goStr "failed to create new chat") 500, db)
                    else if env.dbo.insertChatsOk = false then
                      (errResponse (goStr "failed to create chat") 500, db)
                    else if env.dbo.commitOk = false then
                      (errResponse (goStr "failed to create new chat") 500, db)
                    else
                      let db2 : DB :=
                        ⟨db.users,
                         db.chats ++
                           [(userID, ⟨ROLE_USER, transcriptText, []⟩),
                            (userID,
                             ⟨ROLE_ASSISTANT, answerText, answerAudio⟩)]⟩
                      (⟨RespData.answer
                          ⟨GetCode user.language, isLast,
                           ⟨transcriptText, [], promptSubtitle⟩,
                           ⟨answerText, answerAudio, answerSubtitle⟩⟩,
                        goStr "success", 200⟩, db2)

end HandlerV1

/-! ### Concrete fixtures used by witnesses and counterexamples -/

/-- A provider whose chat calls return a fixed raw output and whose
recognizer returns a fixed transcript. -/
def constClient (raw transcript : List Char) : AIClient :=
  { chat := fun _ => Except.ok raw
  , chatWithAudio := fun _ _ _ => Except.ok raw
  , transcribe := fun _ _ _ => Except.ok transcript
  , speech := fun _ _ _ => Except.ok []
  , defaultTranscriptLanguage := goStr "en" }

/-- Hash comparison fixture: the stored hash is the secret itself. -/
def idHashMatch : List Char → List Char → Bool := fun p s => p == s

/-- An empty store. -/
def dbEmpty : DB := ⟨[], []⟩

/-- One session row. -/
def user1 : ChatUser := ⟨goStr "id1", goStr "sec1", goStr "en", [], []⟩

/-- A store holding exactly the session `user1`. -/
def dbOneUser : DB := ⟨[user1], []⟩

/-- A provider answering with an empty-reply JSON object. -/
def emptyReplyClient : AIClient := constClient (goStr "\x7b\x7d") []

/-- A provider answering with a non-empty reply. -/
def okReplyClient : AIClient :=
  constClient (goStr "\x7b\"response\": \"hi\"\x7d") (goStr "hello")

/-! ### C9 — absent synthesis backend degrades to empty audio -/

/-- C9: for every text and voice, when no speech-synthesis backend is
configured (the synthesis client is absent) speech generation returns an
empty audio result and no error — in both snapshots of `GenerateSpeech` —
and a Start turn with no synthesis client never fails at the speech step:
it either fails elsewhere or completes successfully with empty audio. -/
theorem c9_speech_absent_client_empty_audio :
    (∀ text voice, Util1.GenerateSpeech none text voice = Except.ok []) ∧
    (∀ text voice language,
      Util2.GenerateSpeech none text voice language = Except.ok []) ∧
    (∀ (env : HandlerV2.StartEnv) (db : DB), env.el = none →
      (HandlerV2.StartChat env db).fst.message ≠
        goStr "failed to generate speech" ∧
      ((HandlerV2.StartChat env db).fst.status = 200 →
        ∃ r, (HandlerV2.StartChat env db).fst.data = RespData.start r ∧
          r.chat.audio = [])) := by
  refine ⟨fun _ _ => rfl, fun _ _ _ => rfl, ?_⟩
  intro env db hel
  obtain ⟨ai, el, reqB, gsec, chash, dbo⟩ := env
  cases hel
  simp only [HandlerV2.StartChat, Util1.GenerateSpeech, elVoice]
  split
  · exact ⟨(by decide : goStr "failed to read request" ≠ goStr "failed to generate speech"),
      fun h => absurd h (by decide : ¬ ((400 : Nat) = 200))⟩
  · split
    · exact ⟨(by decide : goStr "failed to prepare chat" ≠ goStr "failed to generate speech"),
        fun h => absurd h (by decide : ¬ ((500 : Nat) = 200))⟩
    · split
      · exact ⟨(by decide : goStr "failed to prepare chat" ≠ goStr "failed to generate speech"),
          fun h => absurd h (by decide : ¬ ((500 : Nat) = 200))⟩
      · split
        · exact ⟨(by decide : goStr "failed to create new chat" ≠ goStr "failed to generate speech"),
            fun h => absurd h (by decide : ¬ ((500 : Nat) = 200))⟩
        · split
          · exact ⟨(by decide : goStr "failed to create new chat" ≠ goStr "failed to generate speech"),
              fun h => absurd h (by decide : ¬ ((500 : Nat) = 200))⟩
          · split
            · exact ⟨(by decide : goStr "failed to create chat" ≠ goStr "failed to generate speech"),
                fun h => absurd h (by decide : ¬ ((500 : Nat) = 200))⟩
            · split
              · exact ⟨(by decide : goStr "failed to create new chat" ≠ goStr "failed to generate speech"),
                  fun h => absurd h (by decide : ¬ ((500 : Nat) = 200))⟩
              · exact ⟨(by decide : goStr "a new chat created" ≠ goStr "failed to generate speech"),
                  fun _ => ⟨_, rfl, rfl⟩⟩

/-- Witness for C9 at a concrete environment: a full Start run with no
synthesis client succeeds with empty greeting audio. -/
theorem c9_witness :
    (HandlerV2.StartChat
        ⟨okReplyClient, none, Except.ok {}, goStr "s", fun s => Except.ok s,
         { newId := goStr "u1" }⟩ dbEmpty).fst.message ≠
      goStr "failed to generate speech" := by
  have h := c9_speech_absent_client_empty_audio.2.2
    ⟨okReplyClient, none, Except.ok {}, goStr "s", fun s => Except.ok s,
     { newId := goStr "u1" }⟩ dbEmpty rfl
  exact h.1

/-! ### C3 — empty-reply handling of the three generators -/

/-- Counterexample for C3: on the raw model output `{}` — which decodes
with an empty reply — the End farewell generator does not fail: it returns
the result (with `isLast` forced true) whose reply is empty, contradicting
the claim that all three generators treat an empty extracted reply as a
hard failure. -/
theorem c3_counterexample_end_accepts_empty_reply :
    Util1.GenerateEndChat (some emptyReplyClient) [] [] =
      Except.ok ({ isLast := true } : AnswerChatResult) ∧
    ({ isLast := true } : AnswerChatResult).response = [] :=
  ⟨rfl, rfl⟩

/-- C3 amended: the Start greeting and Answer reply generators treat an
empty extracted reply as a hard failure; the End farewell generator
performs no such check and instead returns any successfully decoded result
with `isLast` forced to true. -/
theorem c3_amended_empty_reply_policy :
    (∀ ai role topic language subtitleLanguage sp r,
      Util1.GenerateStartChat ai role topic language subtitleLanguage =
        Except.ok (sp, r) → r.response ≠ []) ∧
    (∀ ai history audioData audioFormat subtitleLanguage r,
      Util1.GenerateTextFromAudio ai history audioData audioFormat
        subtitleLanguage = Except.ok r → r.response ≠ []) ∧
    (∀ ai history subtitleLanguage r,
      Util1.GenerateEndChat ai history subtitleLanguage = Except.ok r →
        r.isLast = true) := by
  refine ⟨?_, ?_, ?_⟩
  · intro ai role topic language sub sp r h
    cases ai with
    | none => exact Except.noConfusion h
    | some a =>
      simp only [Util1.GenerateStartChat, GetSystemPrompt] at h
      split at h
      · exact Except.noConfusion h
      · split at h
        · exact Except.noConfusion h
        · split at h
          · exact Except.noConfusion h
          · rename_i result hres
            injection h with h2
            injection h2 with h3 h4
            subst h4
            exact hres
  · intro ai history audioData audioFormat sub r h
    cases ai with
    | none => exact Except.noConfusion h
    | some a =>
      simp only [Util1.GenerateTextFromAudio] at h
      split at h
      · exact Except.noConfusion h
      · split at h
        · exact Except.noConfusion h
        · split at h
          · exact Except.noConfusion h
          · rename_i result hres
            injection h with h2
            subst h2
            exact hres
  · intro ai history sub r h
    cases ai with
    | none => exact Except.noConfusion h
    | some a =>
      simp only [Util1.GenerateEndChat] at h
      split at h
      · exact Except.noConfusion h
      · split at h
        · exact Except.noConfusion h
        · injection h with h2
          subst h2
          rfl

/-- Witness for C3 at a concrete provider output carrying a non-empty
reply. -/
theorem c3_witness : goStr "hi" ≠ ([] : List Char) := by
  have h := c3_amended_empty_reply_policy.1 (some okReplyClient) [] [] [] []
    (goStr "persona role: ; topic: ; language: ")
    ({ response := goStr "hi" } : AnswerChatResult) (by rfl)
  exact h

/-! ### C2 — unknown session versus secret mismatch -/

/-- Answer environment fixture. -/
def answerEnvFix : HandlerV2.AnswerEnv :=
  { ai := okReplyClient, el := none, compareHash := idHashMatch,
    readFileRes := Except.ok [], dbo := {} }

/-- Counterexample for C2: with the same presented credentials, a session
identifier with no stored session yields status 404 ("failed to get chat
user") while a stored session with a mismatched secret yields status 401
("invalid user secret") — the two failures are distinguishable, contrary
to the claim that both surface as the same InvalidCredentials outcome. -/
theorem c2_counterexample_distinguishable :
    (HandlerV2.AnswerChat answerEnvFix (goStr "id1") (goStr "wrong")
        dbEmpty).fst.status = 404 ∧
    (HandlerV2.AnswerChat answerEnvFix (goStr "id1") (goStr "wrong")
        dbOneUser).fst.status = 401 ∧
    (404 : Nat) ≠ 401 :=
  ⟨rfl, rfl, by decide⟩

/-- C2 amended: for Answer and End requests with non-empty credentials, an
unknown session identifier surfaces as 404 Not Found with message "failed
to get chat user", while a stored session whose hash does not match the
presented secret surfaces as 401 Unauthorized with message "invalid user
secret"; in both cases the store is left unchanged.  The two failures are
therefore distinguishable to the caller. -/
theorem c2_amended_auth_failures :
    ∀ (envA : HandlerV2.AnswerEnv) (envE : HandlerV2.EndEnv)
      (uid sec : List Char) (db : DB), uid ≠ [] → sec ≠ [] →
      ((db.users.find? (fun u => u.id == uid) = none →
        HandlerV2.AnswerChat envA uid sec db =
          (errResponse (goStr "failed to get chat user") 404, db) ∧
        HandlerV2.EndChat envE uid sec db =
          (errResponse (goStr "failed to get chat user") 404, db)) ∧
       (∀ u, db.users.find? (fun v => v.id == uid) = some u →
        envA.compareHash sec u.secret = false →
        HandlerV2.AnswerChat envA uid sec db =
          (errResponse (goStr "invalid user secret") 401, db)) ∧
       (∀ u, db.users.find? (fun v => v.id == uid) = some u →
        envE.compareHash sec u.secret = false →
        HandlerV2.EndChat envE uid sec db =
          (errResponse (goStr "invalid user secret") 401, db))) := by
  intro envA envE uid sec db hu hs
  have hcond : ¬ (uid = [] ∨ sec = []) := by
    rintro (h | h)
    · exact hu h
    · exact hs h
  refine ⟨?_, ?_, ?_⟩
  · intro hf
    constructor
    · simp only [HandlerV2.AnswerChat, GetChatUser, hf, if_neg hcond]
    · simp only [HandlerV2.EndChat, GetChatUser, hf, if_neg hcond]
  · intro u hf hcm
    simp only [HandlerV2.AnswerChat, GetChatUser, hf, if_neg hcond, hcm,
      if_pos]
  · intro u hf hcm
    simp only [HandlerV2.EndChat, GetChatUser, hf, if_neg hcond, hcm,
      if_pos]

/-- Witness for C2 at concrete credentials and stores. -/
theorem c2_witness :
    HandlerV2.AnswerChat answerEnvFix (goStr "id1") (goStr "wrong")
        dbOneUser =
      (errResponse (goStr "invalid user secret") 401, dbOneUser) := by
  have h := (c2_amended_auth_failures answerEnvFix
    ⟨okReplyClient, none, idHashMatch, true, {}⟩ (goStr "id1")
    (goStr "wrong") dbOneUser (by decide) (by decide)).2.1 user1 (by rfl)
    (by decide)
  exact h

/-! ### C10 — the generators enrich a copy of the history -/

/-- Index of the first system-role message of a history (its length when
none exists). -/
def firstSystemIdx (history : List ChatMessage) : Nat :=
  history.findIdx (fun m => decide (m.role = ROLE_SYSTEM))

/-- Length is preserved by the copy-and-inject loop. -/
theorem injectInstruction_length (instr : List Char) :
    ∀ h : List ChatMessage, (injectInstruction instr h).length = h.length := by
  intro h
  induction h with
  | nil => rfl
  | cons m rest ih =>
    by_cases hm : m.role = ROLE_SYSTEM
    · simp [injectInstruction, hm]
    · simp [injectInstruction, hm, ih]

/-- Pointwise characterization of the copy-and-inject loop: only the first
system-role message changes, and it changes by appending the separator and
the instruction to its content. -/
theorem injectInstruction_getElem (instr : List Char) :
    ∀ (h : List ChatMessage) (i : Nat),
      (injectInstruction instr h)[i]? =
        if i = firstSystemIdx h then
          (h[i]?).map
            (fun m => { m with content := m.content ++ nl2 ++ instr })
        else h[i]? := by
  intro h
  induction h with
  | nil => intro i; simp [injectInstruction]
  | cons m rest ih =>
    intro i
    by_cases hm : m.role = ROLE_SYSTEM
    · have hinj : injectInstruction instr (m :: rest) =
          { m with content := m.content ++ nl2 ++ instr } :: rest := by
        simp [injectInstruction, hm]
      have hfi : firstSystemIdx (m :: rest) = 0 := by
        simp [firstSystemIdx, List.findIdx_cons, hm]
      cases i with
      | zero => rw [hinj, hfi]; simp
      | succ j => rw [hinj, hfi]; simp
    · have hinj : injectInstruction instr (m :: rest) =
          m :: injectInstruction instr rest := by
        simp [injectInstruction, hm]
      have hfi : firstSystemIdx (m :: rest) = firstSystemIdx rest + 1 := by
        simp [firstSystemIdx, List.findIdx_cons, hm]
      cases i with
      | zero => rw [hinj, hfi]; simp
      | succ j =>
        rw [hinj, hfi]
        simp only [List.getElem?_cons_succ, Nat.add_right_cancel_iff]
        exact ih j

/-- C10: the Answer and End chat generators work on a copied message list:
the list each generator sends to the model has the same length as the
history, agrees with the history at every position except the first
system-role message, whose content is the original content followed by the
blank-line separator and the per-turn JSON instruction; the second
snapshot's Answer generator additionally appends the transcript as a fresh
user message after the copied history.  The Go originals build this list
with `make` and `copy` into a fresh backing array, so the write never
reaches the caller's slice, which is passed by value and left unmodified. -/
theorem c10_generators_enrich_copy :
    (∀ instr (h : List ChatMessage),
      (injectInstruction instr h).length = h.length) ∧
    (∀ instr (h : List ChatMessage) (i : Nat),
      (injectInstruction instr h)[i]? =
        if i = firstSystemIdx h then
          (h[i]?).map
            (fun m => { m with content := m.content ++ nl2 ++ instr })
        else h[i]?) ∧
    (∀ history subtitleLanguage,
      Util1.textFromAudioMessages history subtitleLanguage =
        injectInstruction (Util1.answerJSONInstruction subtitleLanguage)
          history) ∧
    (∀ history transcript subtitleLanguage,
      Util2.answerMessages history transcript subtitleLanguage =
        injectInstruction (Util2.answerJSONInstruction subtitleLanguage)
          history ++ [⟨transcript, ROLE_USER⟩]) ∧
    (∀ history subtitleLanguage,
      Util1.endChatMessages history subtitleLanguage =
        injectInstruction (Util1.endJSONInstruction subtitleLanguage)
          history) ∧
    (∀ history subtitleLanguage,
      Util2.endChatMessages history subtitleLanguage =
        injectInstruction (Util2.endJSONInstruction subtitleLanguage)
          history) :=
  ⟨injectInstruction_length, injectInstruction_getElem,
   fun _ _ => rfl, fun _ _ _ => rfl, fun _ _ => rfl, fun _ _ => rfl⟩

/-! ### C1 — the extractor versus the specification sentence -/

/-- Counterexample for C1: on a fenced text with no newline the code keeps
the first (only) line — dropping only from the last fence marker — while
the specification sentence drops the first line whole. -/
theorem c1_counterexample_extract_no_newline :
    extractJSON (goStr "```abc```") ≠ extractJSONSpec (goStr "```abc```") ∧
    extractJSON (goStr "```abc```") = goStr "```abc" ∧
    extractJSONSpec (goStr "```abc```") = [] :=
  ⟨by decide, by decide, by decide⟩

/-- One unfolding step of `indexOfSub` on a cons cell. -/
theorem indexOfSub_cons (c : Char) (t pat : List Char) :
    indexOfSub (c :: t) pat =
      if List.isPrefixOf pat (c :: t) then some 0
      else (indexOfSub t pat).map (· + 1) := rfl

/-- Matching a one-character pattern against a cons cell is a character
comparison. -/
theorem isPrefixOf_single (x c : Char) (t : List Char) :
    List.isPrefixOf [x] (c :: t) = (x == c) := by
  simp [List.isPrefixOf]

/-- The pattern form of the newline pattern. -/
theorem nlPat_eq : nlPat = [nlChar] := by decide

/-- When the first newline sits at position `i`, dropping through it is
dropping the first line. -/
theorem drop_indexOf_nl :
    ∀ (s : List Char) (i : Nat), indexOfSub s nlPat = some i →
      s.drop (i + 1) = dropFirstLine s := by
  intro s
  induction s with
  | nil =>
    intro i h
    rw [show indexOfSub [] nlPat = none from by decide] at h
    exact Option.noConfusion h
  | cons c rest ih =>
    intro i h
    rw [indexOfSub_cons, nlPat_eq, isPrefixOf_single] at h
    by_cases hc : nlChar = c
    · subst hc
      rw [show (nlChar == nlChar) = true from by decide] at h
      rw [if_pos rfl] at h
      injection h with h2
      subst h2
      simp [dropFirstLine]
    · have hb : (nlChar == c) = false := by
        simp [beq_iff_eq, hc]
      rw [hb] at h
      rw [if_neg (by decide : ¬ (false = true))] at h
      rw [← nlPat_eq] at h
      cases hrest : indexOfSub rest nlPat with
      | none => rw [hrest] at h; exact Option.noConfusion h
      | some j =>
        rw [hrest] at h
        injection h with h2
        subst h2
        have hcne : ¬ c = nlChar := fun hh => hc hh.symm
        simp only [List.drop_succ_cons, dropFirstLine, if_neg hcne]
        exact ih j hrest

/-- The newline handling the code performs equals `dropThroughFirstNl`. -/
theorem matchIdx_eq_dropThroughFirstNl (s : List Char) :
    (match indexOfSub s nlPat with
     | some idx => s.drop (idx + 1)
     | none => s) = dropThroughFirstNl s := by
  cases hix : indexOfSub s nlPat with
  | none => simp [dropThroughFirstNl, containsSub, hix]
  | some i =>
    simp [dropThroughFirstNl, containsSub, hix, drop_indexOf_nl s i hix]

/-- C1 amended: the extractor implements the specification algorithm with
one correction — when the fenced text contains no newline, its first
(only) line is kept rather than dropped; everything else (the trimming,
cutting from the last fence marker in the remainder, and the
first-brace/last-brace slice) is exactly as the specification states. -/
theorem c1_amended_extract_algorithm (raw : List Char) :
    extractJSON raw = extractJSONAmended raw := by
  simp only [extractJSON, extractJSONAmended]
  by_cases hf : List.isPrefixOf fenceMarker (trimSpace raw) = true
  · rw [if_pos hf, if_pos hf, matchIdx_eq_dropThroughFirstNl]
    rfl
  · rw [if_neg hf, if_neg hf]
    rfl

/-! ### C4 — transactional atomicity of Start and Answer persistence -/

/-- C4: every Start run either succeeds (status 200) with the store gaining
exactly one session row together with exactly its two-turn batch — both
keyed by the new session — or fails with the store exactly as before; and
every Answer run either succeeds with exactly its two-turn batch appended
and the session table unchanged, or fails with the store exactly as
before.  No outcome exposes a session without its history, history without
its session, or a partial batch. -/
theorem c4_start_answer_atomicity :
    (∀ (env : HandlerV2.StartEnv) (db : DB),
      ((HandlerV2.StartChat env db).fst.status = 200 ∧
        ∃ u e1 e2, (HandlerV2.StartChat env db).snd =
          ⟨db.users ++ [u], db.chats ++ [(u.id, e1), (u.id, e2)]⟩) ∨
      ((HandlerV2.StartChat env db).fst.status ≠ 200 ∧
        (HandlerV2.StartChat env db).snd = db)) ∧
    (∀ (env : HandlerV2.AnswerEnv) (uid sec : List Char) (db : DB),
      ((HandlerV2.AnswerChat env uid sec db).fst.status = 200 ∧
        ∃ e1 e2, (HandlerV2.AnswerChat env uid sec db).snd =
          ⟨db.users, db.chats ++ [(uid, e1), (uid, e2)]⟩) ∨
      ((HandlerV2.AnswerChat env uid sec db).fst.status ≠ 200 ∧
        (HandlerV2.AnswerChat env uid sec db).snd = db)) := by
  constructor
  · intro env db
    simp only [HandlerV2.StartChat]
    repeat' split
    all_goals
      first
      | exact Or.inr ⟨(by decide : ¬ ((400 : Nat) = 200)), rfl⟩
      | exact Or.inr ⟨(by decide : ¬ ((500 : Nat) = 200)), rfl⟩
      | exact Or.inl ⟨rfl, _, _, _, rfl⟩
  · intro env uid sec db
    simp only [HandlerV2.AnswerChat, Util2.TranscribeSpeech]
    repeat' split
    all_goals
      first
      | exact Or.inr ⟨(by decide : ¬ ((400 : Nat) = 200)), rfl⟩
      | exact Or.inr ⟨(by decide : ¬ ((401 : Nat) = 200)), rfl⟩
      | exact Or.inr ⟨(by decide : ¬ ((404 : Nat) = 200)), rfl⟩
      | exact Or.inr ⟨(by decide : ¬ ((500 : Nat) = 200)), rfl⟩
      | exact Or.inl ⟨rfl, _, _, rfl⟩

/-! ### C6 — turn batches and append-only history -/

/-- Last element of a list ending in a singleton. -/
theorem getLast_append_single {α : Type} (l : List α) (a : α) :
    (l ++ [a]).getLast? = some a := by
  induction l with
  | nil => rfl
  | cons b t ih =>
    rw [List.cons_append, List.getLast?_cons, ih]
    cases t <;> rfl

/-- C6: a successful Start appends exactly one session row and, keyed by
it, exactly the batch {system turn holding the persona instruction,
assistant greeting turn} in that order; Start greeting generation succeeds
only when the persona prompt is the one rendered from role, topic and
language and the reply is non-empty; a successful Answer appends exactly
{user, assistant} in that order with the session table unchanged; a
successful End appends exactly one assistant turn; and every run of the
three handlers — successful or not — only ever appends to the stored
history, never mutating or removing previously stored turns. -/
theorem c6_turn_batches_append_only :
    (∀ (env : HandlerV2.StartEnv) (db : DB),
      (HandlerV2.StartChat env db).fst.status = 200 →
      ∃ req sp r u audio,
        env.reqBody = Except.ok req ∧
        Util2.GenerateStartChat (some env.ai) req.role req.topic
          (GetLanguageName req.language)
          (if req.subtitleLanguage = [] then []
           else GetLanguageName req.subtitleLanguage) = Except.ok (sp, r) ∧
        (HandlerV2.StartChat env db).snd =
          ⟨db.users ++ [u],
           db.chats ++ [(u.id, ⟨ROLE_SYSTEM, sp, []⟩),
                        (u.id, ⟨ROLE_ASSISTANT, r.response, audio⟩)]⟩) ∧
    (∀ ai role topic language subtitleLanguage sp r,
      Util2.GenerateStartChat ai role topic language subtitleLanguage =
        Except.ok (sp, r) →
      GetSystemPrompt role topic language = Except.ok sp ∧ r.response ≠ []) ∧
    (∀ (env : HandlerV2.AnswerEnv) (uid sec : List Char) (db : DB),
      (HandlerV2.AnswerChat env uid sec db).fst.status = 200 →
      ∃ t rt audio,
        (HandlerV2.AnswerChat env uid sec db).snd =
          ⟨db.users,
           db.chats ++ [(uid, ⟨ROLE_USER, t, []⟩),
                        (uid, ⟨ROLE_ASSISTANT, rt, audio⟩)]⟩) ∧
    (∀ (env : HandlerV2.EndEnv) (uid sec : List Char) (db : DB),
      (HandlerV2.EndChat env uid sec db).fst.status = 200 →
      ∃ rt audio,
        (HandlerV2.EndChat env uid sec db).snd =
          ⟨db.users, db.chats ++ [(uid, ⟨ROLE_ASSISTANT, rt, audio⟩)]⟩) ∧
    (∀ (env : HandlerV2.StartEnv) (db : DB),
      ∃ tail, (HandlerV2.StartChat env db).snd.chats = db.chats ++ tail) ∧
    (∀ (env : HandlerV2.AnswerEnv) (uid sec : List Char) (db : DB),
      ∃ tail,
        (HandlerV2.AnswerChat env uid sec db).snd.chats = db.chats ++ tail) ∧
    (∀ (env : HandlerV2.EndEnv) (uid sec : List Char) (db : DB),
      ∃ tail,
        (HandlerV2.EndChat env uid sec db).snd.chats = db.chats ++ tail) := by
  refine ⟨?_, ?_, ?_, ?_, ?_, ?_, ?_⟩
  · intro env db
    simp only [HandlerV2.StartChat]
    repeat' split
    all_goals
      first
      | exact fun h => absurd h (by decide : ¬ ((400 : Nat) = 200))
      | exact fun h => absurd h (by decide : ¬ ((500 : Nat) = 200))
      | exact fun _ => ⟨_, _, _, _, _, by assumption, by assumption, rfl⟩
  · intro ai role topic language sub sp r h
    cases ai with
    | none => exact Except.noConfusion h
    | some a =>
      simp only [Util2.GenerateStartChat] at h
      split at h
      · exact Except.noConfusion h
      · split at h
        · exact Except.noConfusion h
        · split at h
          · exact Except.noConfusion h
          · split at h
            · exact Except.noConfusion h
            · injection h with h2
              injection h2 with h3 h4
              subst h3
              subst h4
              exact ⟨by assumption, by assumption⟩
  · intro env uid sec db
    simp only [HandlerV2.AnswerChat, Util2.TranscribeSpeech]
    repeat' split
    all_goals
      first
      | exact fun h => absurd h (by decide : ¬ ((400 : Nat) = 200))
      | exact fun h => absurd h (by decide : ¬ ((401 : Nat) = 200))
      | exact fun h => absurd h (by decide : ¬ ((404 : Nat) = 200))
      | exact fun h => absurd h (by decide : ¬ ((500 : Nat) = 200))
      | exact fun _ => ⟨_, _, _, rfl⟩
  · intro env uid sec db
    simp only [HandlerV2.EndChat]
    repeat' split
    all_goals
      first
      | exact fun h => absurd h (by decide : ¬ ((401 : Nat) = 200))
      | exact fun h => absurd h (by decide : ¬ ((404 : Nat) = 200))
      | exact fun h => absurd h (by decide : ¬ ((500 : Nat) = 200))
      | exact fun _ => ⟨_, _, rfl⟩
  · intro env db
    simp only [HandlerV2.StartChat]
    repeat' split
    all_goals
      first
      | exact ⟨_, rfl⟩
      | exact ⟨[], by simp⟩
  · intro env uid sec db
    simp only [HandlerV2.AnswerChat, Util2.TranscribeSpeech]
    repeat' split
    all_goals
      first
      | exact ⟨_, rfl⟩
      | exact ⟨[], by simp⟩
  · intro env uid sec db
    simp only [HandlerV2.EndChat]
    repeat' split
    all_goals
      first
      | exact ⟨_, rfl⟩
      | exact ⟨[], by simp⟩

/-- Start environment fixture for a fully successful run. -/
def startEnvFix : HandlerV2.StartEnv :=
  { ai := okReplyClient, el := none, reqBody := Except.ok {},
    generatedSecret := goStr "s", createHash := fun s => Except.ok s,
    dbo := { newId := goStr "u1" } }

/-- Witness for C6 at a concrete successful Start run. -/
theorem c6_witness :
    ∃ req sp r u audio,
      startEnvFix.reqBody = Except.ok req ∧
      Util2.GenerateStartChat (some startEnvFix.ai) req.role req.topic
        (GetLanguageName req.language)
        (if req.subtitleLanguage = [] then []
         else GetLanguageName req.subtitleLanguage) = Except.ok (sp, r) ∧
      (HandlerV2.StartChat startEnvFix dbEmpty).snd =
        ⟨dbEmpty.users ++ [u],
         dbEmpty.chats ++ [(u.id, ⟨ROLE_SYSTEM, sp, []⟩),
                           (u.id, ⟨ROLE_ASSISTANT, r.response, audio⟩)]⟩ :=
  c6_turn_batches_append_only.1 startEnvFix dbEmpty (by rfl)

/-! ### C7 — the recognizer transcript is authoritative -/

/-- C7: in a successful Answer turn, the prompt text returned to the
caller and the persisted user turn both carry exactly the recognizer
transcript — regardless of any transcript the text-generation model echoed
in its JSON — and the user utterance appended to the message list sent to
the text-generation model is that same recognizer transcript. -/
theorem c7_recognizer_transcript_authoritative :
    ∀ (env : HandlerV2.AnswerEnv) (uid sec : List Char) (db : DB)
      (user : ChatUser) (bytes : List Nat) (fn t : List Char),
      GetChatUser db uid = Except.ok user →
      env.readFileRes = Except.ok bytes →
      env.fileHeader = some fn →
      env.ai.transcribe bytes fn user.language = Except.ok t →
      (HandlerV2.AnswerChat env uid sec db).fst.status = 200 →
      (∃ ar, (HandlerV2.AnswerChat env uid sec db).fst.data =
          RespData.answer ar ∧ ar.prompt.text = t) ∧
      (∃ rt audio, (HandlerV2.AnswerChat env uid sec db).snd.chats =
          db.chats ++ [(uid, ⟨ROLE_USER, t, []⟩),
                       (uid, ⟨ROLE_ASSISTANT, rt, audio⟩)]) ∧
      (∀ subtitleLanguage,
        (Util2.answerMessages
            (ConvertToChatMessage (GetChatsByChatUserID db user.id)) t
            subtitleLanguage).getLast? = some ⟨t, ROLE_USER⟩) := by
  intro env uid sec db user bytes fn t huser hread hfh htr
  simp only [HandlerV2.AnswerChat, Util2.TranscribeSpeech, huser, hread, hfh,
    htr]
  repeat' split
  all_goals
    first
    | exact fun h => absurd h (by decide : ¬ ((401 : Nat) = 200))
    | exact fun h => absurd h (by decide : ¬ ((500 : Nat) = 200))
    | exact fun _ =>
        ⟨⟨_, rfl, rfl⟩, ⟨_, _, rfl⟩,
         fun s => getLast_append_single _ _⟩

/-- Witness for C7 at a concrete successful Answer run whose recognizer
returns "hello". -/
theorem c7_witness :
    ∃ ar, (HandlerV2.AnswerChat answerEnvFix (goStr "id1") (goStr "sec1")
        dbOneUser).fst.data = RespData.answer ar ∧
      ar.prompt.text = goStr "hello" :=
  (c7_recognizer_transcript_authoritative answerEnvFix (goStr "id1")
    (goStr "sec1") dbOneUser user1 [] (goStr "audio.webm") (goStr "hello")
    rfl rfl rfl rfl (by rfl)).1

/-! ### C8 — subtitle failures are swallowed -/

/-- C8: in the first handler snapshot, when subtitle translation fails but
every other stage of the pipeline succeeds, the Start turn and the Answer
turn still complete with status 200, return an empty subtitle, and persist
their turn batches; a subtitle failure never aborts the turn. -/
theorem c8_subtitle_failure_nonfatal :
    (∀ (env : HandlerV1.StartEnv) (db : DB) req sp it e audio hashed,
      env.reqBody = Except.ok req →
      req.subtitleLanguage ≠ [] →
      env.getChatAssets = Except.ok (sp, it) →
      Util1.GenerateSpeech env.el it (elVoice env.el) = Except.ok audio →
      env.subtitleRes it (GetLanguageName req.subtitleLanguage) =
        Except.error e →
      env.createHash env.generatedSecret = Except.ok hashed →
      env.dbo.beginOk = true → env.dbo.insertUserOk = true →
      env.dbo.insertChatsOk = true → env.dbo.commitOk = true →
      (HandlerV1.StartChat env db).fst.status = 200 ∧
      (∃ r, (HandlerV1.StartChat env db).fst.data = RespData.start r ∧
        r.chat.subtitle = []) ∧
      (HandlerV1.StartChat env db).snd.chats =
        db.chats ++ [(env.dbo.newId, ⟨ROLE_SYSTEM, sp, []⟩),
                     (env.dbo.newId, ⟨ROLE_ASSISTANT, it, audio⟩)]) ∧
    (∀ (env : HandlerV1.AnswerEnv) (uid sec : List Char) (db : DB)
      (user : ChatUser) (fn : List Char) (bytes : List Nat)
      (t answerText : List Char) (e1 e2 audio : List Char),
      uid ≠ [] → sec ≠ [] →
      GetChatUser db uid = Except.ok user →
      env.compareHash sec user.secret = true →
      env.getChatsOk = true → env.formFileOk = true →
      env.fileHeader = some fn →
      env.readFileRes = Except.ok bytes →
      env.ai.transcribe bytes fn user.language = Except.ok t →
      env.generateTextFromAudio
        (ConvertToChatMessage (GetChatsByChatUserID db user.id))
        (base64Encode bytes) = Except.ok answerText →
      List.isPrefixOf (goStr "[END]") answerText = false →
      Util1.GenerateSpeech env.el answerText user.voice = Except.ok audio →
      user.subtitleLanguage ≠ [] →
      env.subtitleRes answerText
        (GetLanguageName (GetCode user.subtitleLanguage)) =
        Except.error e1 →
      env.subtitleRes t (GetLanguageName (GetCode user.subtitleLanguage)) =
        Except.error e2 →
      env.dbo.beginOk = true → env.dbo.insertChatsOk = true →
      env.dbo.commitOk = true →
      (HandlerV1.AnswerChat env uid sec db).fst.status = 200 ∧
      (∃ ar, (HandlerV1.AnswerChat env uid sec db).fst.data =
          RespData.answer ar ∧
        ar.prompt.subtitle = [] ∧ ar.answer.subtitle = []) ∧
      (HandlerV1.AnswerChat env uid sec db).snd.chats =
        db.chats ++ [(uid, ⟨ROLE_USER, t, []⟩),
                     (uid, ⟨ROLE_ASSISTANT, answerText, audio⟩)]) := by
  constructor
  · intro env db req sp it e audio hashed hreq hne hassets hspeech hsub hhash
      hb1 hb2 hb3 hb4
    simp [HandlerV1.StartChat, hreq, hassets, hspeech, hsub, hhash, hb1,
      hb2, hb3, hb4, GenerateSubtitle, if_neg hne]
  · intro env uid sec db user fn bytes t answerText e1 e2 audio huid hsec
      huser hcm hchats hff hfh hread htr hgen hnoend hspeech hsubne hsub1
      hsub2 hb1 hb2 hb3
    have hcond : ¬ (uid = [] ∨ sec = []) := by
      rintro (h | h)
      · exact huid h
      · exact hsec h
    simp [HandlerV1.AnswerChat, Util2.TranscribeSpeech, if_neg hcond,
      huser, hcm, hchats, hff, hfh, hread, htr, hgen, hnoend, hspeech,
      GenerateSubtitle, hsub1, hsub2, if_neg hsubne, hb1, hb2, hb3]

/-! ### C5 — fence-stripping transparency -/

/-- The fenced form the claim quantifies over: a ```json code block holding
the object text. -/
def fencedJson (obj : List Char) : List Char :=
  goStr "```json\n" ++ obj ++ goStr "\n```"

/-- The object text used in the concrete counterexample. -/
def obj0 : List Char := goStr "\x7b\"a\": 1\x7d"

/-- The head of a dropWhile result falsifies the predicate. -/
theorem head_dropWhile_false {p : Char → Bool} {s : Char} {t : List Char} :
    ∀ {l : List Char}, l.dropWhile p = s :: t → p s = false := by
  intro l
  induction l with
  | nil => intro h; exact absurd h (by simp)
  | cons a r ih =>
    intro h
    rw [List.dropWhile_cons] at h
    by_cases ha : p a = true
    · rw [if_pos ha] at h
      exact ih h
    · rw [if_neg ha] at h
      injection h with h1 h2
      subst h1
      simpa using ha

/-- A string whose trim is empty is entirely whitespace. -/
theorem dropWhile_nil_of_trimSpace_nil {s : List Char}
    (h : trimSpace s = []) : s.dropWhile goIsSpace = [] := by
  cases hd : s.dropWhile goIsSpace with
  | nil => rfl
  | cons c t =>
    exfalso
    have hc : goIsSpace c = false := head_dropWhile_false hd
    have : trimSpace s = (((t.reverse ++ [c]).dropWhile goIsSpace).reverse) := by
      simp [trimSpace, trimLeftGo, trimRightGo, hd]
    rw [this] at h
    rw [List.dropWhile_append] at h
    split at h
    · rw [List.dropWhile_cons, if_neg (by simp [hc])] at h
      simp at h
    · simp at h

/-- Trimming from the left ignores an all-whitespace prefix. -/
theorem trimLeftGo_append_ws {p r : List Char}
    (hp : p.dropWhile goIsSpace = []) :
    trimLeftGo (p ++ r) = trimLeftGo r := by
  unfold trimLeftGo
  rw [List.dropWhile_append, hp]
  simp

/-- Trimming from the left keeps a string headed by non-whitespace. -/
theorem trimLeftGo_cons_not_ws {c : Char} {r : List Char}
    (hc : goIsSpace c = false) : trimLeftGo (c :: r) = c :: r := by
  unfold trimLeftGo
  rw [List.dropWhile_cons, if_neg (by simp [hc])]

/-- Trimming from the right ignores an all-whitespace suffix. -/
theorem trimRightGo_append_ws {a b : List Char}
    (hball : ∀ c ∈ b, goIsSpace c = true) :
    trimRightGo (a ++ b) = trimRightGo a := by
  unfold trimRightGo
  rw [List.reverse_append, List.dropWhile_append]
  have hbrev : b.reverse.dropWhile goIsSpace = [] := by
    rw [List.dropWhile_eq_nil_iff]
    intro x hx
    exact hball x (List.mem_reverse.mp hx)
  rw [hbrev]
  simp

/-- Trimming from the right keeps a string ending in non-whitespace. -/
theorem trimRightGo_append_not_ws {a : List Char} {c : Char}
    (hc : goIsSpace c = false) : trimRightGo (a ++ [c]) = a ++ [c] := by
  unfold trimRightGo
  rw [List.reverse_append]
  simp only [List.reverse_cons, List.reverse_nil, List.nil_append,
    List.singleton_append]
  rw [List.dropWhile_cons, if_neg (by simp [hc])]
  simp

/-- Trimming from the right drops a single trailing whitespace character. -/
theorem trimRightGo_append_ws_single {a : List Char} {c : Char}
    (hc : goIsSpace c = true) : trimRightGo (a ++ [c]) = trimRightGo a := by
  unfold trimRightGo
  rw [List.reverse_append]
  simp only [List.reverse_cons, List.reverse_nil, List.nil_append,
    List.singleton_append]
  rw [List.dropWhile_cons, if_pos (by simp [hc])]

/-- Last index of a pattern in an appended list, driven by the suffix. -/
theorem lastIndexOfSub_append (a : List Char) :
    ∀ (b pat : List Char) (i : Nat), lastIndexOfSub b pat = some i →
      lastIndexOfSub (a ++ b) pat = some (a.length + i) := by
  induction a with
  | nil => intro b pat i h; simpa using h
  | cons c t ih =>
    intro b pat i h
    have h2 := ih b pat i h
    show lastIndexOfSub (c :: (t ++ b)) pat = some ((c :: t).length + i)
    rw [show lastIndexOfSub (c :: (t ++ b)) pat =
      (match lastIndexOfSub (t ++ b) pat with
       | some j => some (j + 1)
       | none => if List.isPrefixOf pat (c :: (t ++ b)) then some 0
                 else none) from rfl]
    rw [h2]
    show some (t.length + i + 1) = some ((c :: t).length + i)
    have : t.length + i + 1 = (c :: t).length + i := by
      simp [List.length_cons]
      omega
    rw [this]

/-- Taking past an appended prefix keeps the prefix whole. -/
theorem take_append_len (a : List Char) :
    ∀ (b : List Char) (i : Nat), (a ++ b).take (a.length + i) = a ++ b.take i := by
  induction a with
  | nil => intro b i; simp
  | cons c t ih =>
    intro b i
    have harith : (c :: t).length + i = (t.length + i) + 1 := by
      simp [List.length_cons]
      omega
    rw [harith]
    show (c :: (t ++ b)).take ((t.length + i) + 1) = c :: (t ++ b.take i)
    rw [List.take_succ_cons, ih]

/-- A list ending in `c` splits as a snoc. -/
theorem exists_snoc_of_getLast? {c : Char} :
    ∀ {l : List Char}, l.getLast? = some c → ∃ y, l = y ++ [c] := by
  intro l
  induction l with
  | nil => intro h; exact Option.noConfusion h
  | cons a t ih =>
    intro h
    cases t with
    | nil =>
      injection h with h1
      subst h1
      exact ⟨[], rfl⟩
    | cons b t2 =>
      rw [List.getLast?_cons_cons] at h
      obtain ⟨y, hy⟩ := ih h
      exact ⟨a :: y, by rw [List.cons_append, ← hy]⟩

/-- Index of a found prefix is zero. -/
theorem indexOfSub_found {pat s : List Char}
    (h : List.isPrefixOf pat s = true) : indexOfSub s pat = some 0 := by
  cases s with
  | nil =>
    rw [show indexOfSub [] pat =
      (if List.isPrefixOf pat [] then some 0 else none) from rfl, if_pos h]
  | cons c t => rw [indexOfSub_cons, if_pos h]

/-- Index search steps past a non-matching head. -/
theorem indexOfSub_cons_not {c : Char} {t pat : List Char}
    (h : List.isPrefixOf pat (c :: t) = false) :
    indexOfSub (c :: t) pat = (indexOfSub t pat).map (· + 1) := by
  rw [indexOfSub_cons, if_neg (by simp [h])]

/-- Prefix matching steps through cons cells by character comparison. -/
theorem isPrefixOf_cons₂ (a b : Char) (as bs : List Char) :
    List.isPrefixOf (a :: as) (b :: bs) = (a == b && List.isPrefixOf as bs) := by
  simp [List.isPrefixOf]

/-- A single-character search skips a prefix free of that character. -/
theorem indexOfSub_append_single_skip {x : Char} :
    ∀ (a : List Char), (∀ c ∈ a, (x == c) = false) →
    ∀ (b : List Char) (i : Nat), indexOfSub b [x] = some i →
      indexOfSub (a ++ b) [x] = some (a.length + i) := by
  intro a
  induction a with
  | nil => intro _ b i h; simpa using h
  | cons c t ih =>
    intro hall b i h
    have hc : (x == c) = false := hall c (List.mem_cons_self c t)
    rw [List.cons_append,
      indexOfSub_cons_not (by rw [isPrefixOf_single]; exact hc)]
    rw [ih (fun d hd => hall d (List.mem_cons_of_mem c hd)) b i h]
    show some (t.length + i + 1) = some ((c :: t).length + i)
    congr 1
    simp [List.length_cons]
    omega

/-- The first newline of a ```json fence sits at index 7. -/
theorem indexOfSub_nl_fenced (obj : List Char) :
    indexOfSub (fencedJson obj) nlPat = some 7 := by
  rw [nlPat_eq]
  rw [show fencedJson obj =
    goStr "```json" ++ (nlChar :: (obj ++ goStr "\n```")) from rfl]
  have h0 : indexOfSub (nlChar :: (obj ++ goStr "\n```")) [nlChar] = some 0 :=
    indexOfSub_found (by rw [isPrefixOf_single]; decide)
  have h1 := indexOfSub_append_single_skip (goStr "```json") (by decide)
    (nlChar :: (obj ++ goStr "\n```")) 0 h0
  rw [h1]
  decide

/-- The fence marker heads every ```json fence. -/
theorem fence_isPrefixOf_fenced (obj : List Char) :
    List.isPrefixOf fenceMarker (fencedJson obj) = true := by
  rw [show fenceMarker =
    Char.ofNat 96 :: Char.ofNat 96 :: Char.ofNat 96 :: [] from by decide]
  rw [show fencedJson obj = Char.ofNat 96 :: Char.ofNat 96 :: Char.ofNat 96 ::
    (goStr "json" ++ (nlChar :: (obj ++ goStr "\n```"))) from rfl]
  rw [isPrefixOf_cons₂, isPrefixOf_cons₂, isPrefixOf_cons₂]
  simp [List.isPrefixOf]

/-- The fence marker never heads a brace-headed text. -/
theorem fence_not_isPrefixOf_brace (t : List Char) :
    List.isPrefixOf fenceMarker (lbrace :: t) = false := by
  rw [show fenceMarker =
    Char.ofNat 96 :: Char.ofNat 96 :: Char.ofNat 96 :: [] from by decide]
  rw [isPrefixOf_cons₂]
  simp [show (Char.ofNat 96 == lbrace) = false from by decide]

/-- Trimming a fenced block surrounded by whitespace-only prose yields the
fenced block. -/
theorem trim_wrapped (pre obj suf : List Char) (hpre : trimSpace pre = [])
    (hsuf : trimSpace suf = []) :
    trimSpace (pre ++ fencedJson obj ++ suf) = fencedJson obj := by
  have hp := dropWhile_nil_of_trimSpace_nil hpre
  have hsall : ∀ c ∈ suf, goIsSpace c = true :=
    List.dropWhile_eq_nil_iff.mp (dropWhile_nil_of_trimSpace_nil hsuf)
  unfold trimSpace
  rw [List.append_assoc, trimLeftGo_append_ws hp]
  rw [show trimLeftGo (fencedJson obj ++ suf) = fencedJson obj ++ suf from
    trimLeftGo_cons_not_ws (by decide)]
  rw [trimRightGo_append_ws hsall]
  unfold fencedJson
  rw [show goStr "\n```" = goStr "\n``" ++ [Char.ofNat 96] from by decide]
  rw [← List.append_assoc]
  exact trimRightGo_append_not_ws (by decide)

/-- Extraction on a bare trimmed object text is the identity. -/
theorem extract_bare_object (obj : List Char)
    (hhead : obj.head? = some lbrace) (hlast : obj.getLast? = some rbrace) :
    extractJSON obj = obj := by
  cases obj with
  | nil => exact absurd hhead (by simp)
  | cons c t =>
    injection hhead with h1
    subst h1
    obtain ⟨y, hy⟩ := exists_snoc_of_getLast? hlast
    have htrim : trimSpace (lbrace :: t) = lbrace :: t := by
      unfold trimSpace
      rw [trimLeftGo_cons_not_ws (by decide), hy]
      exact trimRightGo_append_not_ws (by decide)
    simp only [extractJSON, htrim]
    rw [if_neg (show ¬ (List.isPrefixOf fenceMarker (lbrace :: t) = true) from
      by rw [fence_not_isPrefixOf_brace]; decide)]
    rw [(indexOfSub_found (by rw [isPrefixOf_single]; decide) :
      indexOfSub (lbrace :: t) [lbrace] = some 0)]
    have hlastix : lastIndexOfSub (lbrace :: t) [rbrace] = some y.length := by
      rw [hy]
      have h0 := lastIndexOfSub_append y [rbrace] [rbrace] 0 rfl
      simpa using h0
    rw [hlastix]
    have hypos : 0 < y.length := by
      cases y with
      | nil =>
        exfalso
        rw [List.nil_append] at hy
        injection hy with h2 h3
        exact absurd h2 (by decide)
      | cons a z => simp
    show (if 0 < y.length then
        ((lbrace :: t).drop 0).take (y.length + 1 - 0) else lbrace :: t) =
      lbrace :: t
    rw [if_pos hypos]
    simp only [List.drop_zero, Nat.sub_zero]
    rw [hy, show y.length + 1 = (y ++ [rbrace]).length from by simp]
    exact List.take_length _

/-- Extraction strips a whitespace-surrounded ```json fence down to the
object text. -/
theorem extract_wrapped (pre obj suf : List Char)
    (hpre : trimSpace pre = []) (hsuf : trimSpace suf = [])
    (hhead : obj.head? = some lbrace) (hlast : obj.getLast? = some rbrace) :
    extractJSON (pre ++ fencedJson obj ++ suf) = obj := by
  have htrim := trim_wrapped pre obj suf hpre hsuf
  simp only [extractJSON, htrim]
  rw [if_pos (fence_isPrefixOf_fenced obj)]
  rw [indexOfSub_nl_fenced obj]
  show trimSpace (match lastIndexOfSub (obj ++ goStr "\n```") fenceMarker with
    | some idx => (obj ++ goStr "\n```").take idx
    | none => obj ++ goStr "\n```") = obj
  rw [lastIndexOfSub_append obj (goStr "\n```") fenceMarker 1 rfl]
  show trimSpace ((obj ++ goStr "\n```").take (obj.length + 1)) = obj
  rw [take_append_len obj (goStr "\n```") 1]
  show trimSpace (obj ++ [nlChar]) = obj
  cases obj with
  | nil => exact absurd hhead (by simp)
  | cons c t =>
    injection hhead with h1
    subst h1
    obtain ⟨y, hy⟩ := exists_snoc_of_getLast? hlast
    unfold trimSpace
    rw [show (lbrace :: t) ++ [nlChar] = lbrace :: (t ++ [nlChar]) from rfl]
    rw [trimLeftGo_cons_not_ws (by decide)]
    rw [show lbrace :: (t ++ [nlChar]) = (lbrace :: t) ++ [nlChar] from rfl]
    rw [trimRightGo_append_ws_single (by decide), hy]
    exact trimRightGo_append_not_ws (by decide)

/-- Counterexample for C5: surrounding a ```json-fenced object with
non-whitespace prose can change the parsed result.  A prefix holding an
opening brace diverts extraction to the brace slice (which then fails to
parse), and a suffix holding a fence marker shifts the cut (leaving
trailing garbage that fails to parse), while the bare object parses fine —
so the extractor does not yield the same parsed object for every
prefix/suffix as the claim states. -/
theorem c5_counterexample_prose_breaks_transparency :
    parseJsonValue (extractJSON obj0) =
      some (Json.obj [(goStr "a", Json.num (goStr "1"))]) ∧
    parseJsonValue
      (extractJSON (goStr "\x7b" ++ fencedJson obj0 ++ ([] : List Char))) =
      none ∧
    parseJsonValue
      (extractJSON (([] : List Char) ++ fencedJson obj0 ++ goStr "x```")) =
      none ∧
    some (Json.obj [(goStr "a", Json.num (goStr "1"))]) ≠
      (none : Option Json) :=
  ⟨rfl, rfl, rfl, fun h => Option.noConfusion h⟩

/-- C5 amended: fence-stripping is transparent when the fenced block
stands alone — for every prefix and suffix that trim to whitespace-nothing
and every trimmed object text (brace-headed and brace-terminated), the
extractor returns exactly the object text for both the fenced form and the
bare form, hence the same parsed object. -/
theorem c5_amended_fence_transparency (pre obj suf : List Char)
    (hpre : trimSpace pre = []) (hsuf : trimSpace suf = [])
    (hhead : obj.head? = some lbrace) (hlast : obj.getLast? = some rbrace) :
    extractJSON (pre ++ fencedJson obj ++ suf) = extractJSON obj ∧
    parseJsonValue (extractJSON (pre ++ fencedJson obj ++ suf)) =
      parseJsonValue (extractJSON obj) := by
  have h1 := extract_wrapped pre obj suf hpre hsuf hhead hlast
  have h2 := extract_bare_object obj hhead hlast
  rw [h1, h2]
  exact ⟨rfl, rfl⟩

/-- Witness for C5 at a concrete whitespace-surrounded fenced object. -/
theorem c5_witness :
    extractJSON (goStr "  " ++ fencedJson obj0 ++ goStr "\n") =
      extractJSON obj0 :=
  (c5_amended_fence_transparency (goStr "  ") obj0 (goStr "\n")
    (by decide) (by decide) (by decide) (by decide)).1

/-- Start environment fixture (first snapshot) whose subtitle translation
fails while everything else succeeds. -/
def v1StartEnvFix : HandlerV1.StartEnv :=
  { defaultTranscriptLanguage := goStr "en", el := none,
    reqBody := Except.ok { subtitleLanguage := goStr "id-ID" },
    getChatAssets := Except.ok (goStr "sys", goStr "hello there"),
    subtitleRes := fun _ _ => Except.error (goStr "translation down"),
    generatedSecret := goStr "s", createHash := fun s => Except.ok s,
    dbo := { newId := goStr "u1" } }

/-- Witness for C8 at a concrete Start run whose subtitle translation
fails: the turn still succeeds. -/
theorem c8_witness :
    (HandlerV1.StartChat v1StartEnvFix dbEmpty).fst.status = 200 :=
  (c8_subtitle_failure_nonfatal.1 v1StartEnvFix dbEmpty
    { subtitleLanguage := goStr "id-ID" } (goStr "sys") (goStr "hello there")
    (goStr "translation down") [] (goStr "s") rfl (by decide) rfl rfl rfl rfl
    rfl rfl rfl rfl).1
